import Mathlib

/-!
Verification development for the geometry and placement engine of
src/mbm-blender/setup_scene.py.

Modelling conventions:
* Python floats are idealized as exact rationals (ℚ).  Comparisons that the
  source performs on Euclidean lengths (for example v.length < 1e-9) are
  embedded as the exactly equivalent comparisons on squared lengths
  (normSq v < (1e-9)^2), which avoids irrational square roots.
* The surrounding Blender runtime (world_to_camera_view, BVH ray casts,
  object matrices, Vector.normalized) is external to the repository; those
  operations are abstracted as fields of a Host structure and the theorems
  are proved for every host.
* Coordinates of the icosahedron family live in the field ℚ(√5), embedded
  as pairs of rationals, so that the golden ratio is exact.
-/

namespace MBM

section RatComputable

/- Batteries marks the rational operations irreducible, which blocks the
decide tactic on concrete rational arithmetic; the kernel itself reduces
them fine.  Restore default transparency locally. -/
attribute [local semireducible] Rat.add Rat.mul Rat.sub Rat.inv

/-- Rational 3-vector, modelling mathutils.Vector with float components
idealized as exact rationals. -/
structure V3 where
  x : ℚ
  y : ℚ
  z : ℚ
deriving DecidableEq, Repr

namespace V3

def add (a b : V3) : V3 := ⟨a.x + b.x, a.y + b.y, a.z + b.z⟩

def sub (a b : V3) : V3 := ⟨a.x - b.x, a.y - b.y, a.z - b.z⟩

def neg (a : V3) : V3 := ⟨-a.x, -a.y, -a.z⟩

def smul (q : ℚ) (a : V3) : V3 := ⟨q * a.x, q * a.y, q * a.z⟩

def dot (a b : V3) : ℚ := a.x * b.x + a.y * b.y + a.z * b.z

def cross (a b : V3) : V3 :=
  ⟨a.y * b.z - a.z * b.y, a.z * b.x - a.x * b.z, a.x * b.y - a.y * b.x⟩

/-- Squared Euclidean length; v.length < t (t ≥ 0) is embedded as
normSq v < t^2. -/
def normSq (a : V3) : ℚ := dot a a

end V3

instance : Add V3 := ⟨V3.add⟩
instance : Sub V3 := ⟨V3.sub⟩
instance : Neg V3 := ⟨V3.neg⟩

/-- A triangle of vertex indices, as in the tri_faces argument of
boundary_edges. -/
def Tri : Type := ℕ × ℕ × ℕ

instance : DecidableEq Tri := by unfold Tri; infer_instance

/-- Unordered edge key, as built by key = (i, j) if i < j else (j, i). -/
def mkKey (i j : ℕ) : ℕ × ℕ := if i < j then (i, j) else (j, i)

/-- The three edge keys of a triangle, in the order ((a,b), (b,c), (c,a))
used by boundary_edges. -/
def edgeKeysOfTri (t : Tri) : List (ℕ × ℕ) :=
  [mkKey t.1 t.2.1, mkKey t.2.1 t.2.2, mkKey t.2.2 t.1]

/-- Raw (unnormalized) triangle normal (vb - va).cross(vc - va).  The source
normalizes it when its length exceeds 1e-12 and replaces it by the zero
vector otherwise; every later use of the stored normal is embedded below as
the exactly equivalent test on this raw cross product. -/
def triNormal (verts : List V3) (t : Tri) : V3 :=
  let va := verts.getD t.1 ⟨0, 0, 0⟩
  let vb := verts.getD t.2.1 ⟨0, 0, 0⟩
  let vc := verts.getD t.2.2 ⟨0, 0, 0⟩
  V3.cross (vb - va) (vc - va)

/-- The stored normal of the source is degenerate (the zero vector) exactly
when the raw cross product has length at most 1e-12, that is squared length
at most (1e-12)^2. -/
def degenNormal (n : V3) : Bool :=
  decide (n.normSq ≤ 1 / 1000000000000000000000000)

/-- For unit normals n0, n1 the test abs(n0.dot(n1)) < coplanar_dot is,
for coplanar_dot > 0, exactly (r0.dot r1)^2 < coplanar_dot^2 * |r0|^2 * |r1|^2
on the raw (unnormalized) cross products r0, r1; for coplanar_dot ≤ 0 the
test is false since an absolute value is nonnegative. -/
def nonCoplanar (n0 n1 : V3) (coplanar_dot : ℚ) : Bool :=
  decide (0 < coplanar_dot) &&
    decide (V3.dot n0 n1 * V3.dot n0 n1 <
      coplanar_dot * coplanar_dot * n0.normSq * n1.normSq)

/-- Incident triangle indices of an unordered edge key, in face order with
multiplicity, mirroring the edge_faces dictionary of boundary_edges. -/
def incident (faces : List Tri) (e : ℕ × ℕ) : List ℕ :=
  faces.enum.flatMap fun p =>
    (edgeKeysOfTri p.2).filterMap fun k => if k = e then some p.1 else none

/-- Keep decision for one edge given its incident face list, mirroring the
final loop of boundary_edges: an edge with at most one incident triangle is
kept; otherwise it is kept if some later incident triangle, paired with the
first one, has a degenerate normal or is not nearly coplanar with it. -/
def keepEdge (verts : List V3) (faces : List Tri) (coplanar_dot : ℚ)
    (e : ℕ × ℕ) : Bool :=
  match incident faces e with
  | [] => true
  | [_] => true
  | f0 :: rest =>
    let n0 := triNormal verts (faces.getD f0 (0, 0, 0))
    rest.any fun fj =>
      let n1 := triNormal verts (faces.getD fj (0, 0, 0))
      degenNormal n0 || degenNormal n1 || nonCoplanar n0 n1 coplanar_dot

/-- Lexicographic order on index pairs, the order of Python sorted on
2-tuples. -/
def pairLe (a b : ℕ × ℕ) : Prop :=
  a.1 < b.1 ∨ (a.1 = b.1 ∧ a.2 ≤ b.2)

instance : DecidableRel pairLe := fun a b => by unfold pairLe; infer_instance

/-- Embedding of boundary_edges: derive true polyhedron edges from a
triangulated surface, dropping internal triangulation diagonals.  The edge
keys are collected in first-occurrence order (the iteration order of the
Python dict), filtered by the keep decision, and sorted; sorting collected
distinct keys, insertionSort produces exactly the list Python sorted
returns. -/
def boundary_edges (verts : List V3) (tri_faces : List Tri)
    (coplanar_dot : ℚ := 999999 / 1000000) : List (ℕ × ℕ) :=
  let keys := (tri_faces.flatMap edgeKeysOfTri).dedup
  List.insertionSort pairLe (keys.filter (keepEdge verts tri_faces coplanar_dot))

/-- Canonical cube vertices (the list in cube_topology before scaling). -/
def cube_verts_canonical_q : List V3 :=
  [⟨-1, -1, -1⟩, ⟨1, -1, -1⟩, ⟨1, 1, -1⟩, ⟨-1, 1, -1⟩,
   ⟨-1, -1, 1⟩, ⟨1, -1, 1⟩, ⟨1, 1, 1⟩, ⟨-1, 1, 1⟩]

/-- The six outward-wound quad faces of cube_topology. -/
def cube_quad_faces : List (List ℕ) :=
  [[0, 3, 2, 1], [4, 5, 6, 7], [0, 1, 5, 4], [3, 7, 6, 2], [1, 2, 6, 5], [0, 4, 7, 3]]

/-- Fan triangulation of a convex polygon face, the triangulation Blender
applies to the solid mesh whose loop triangles feed boundary_edges; this
builds the 12-triangle cube of the spec's test scenario. -/
def fanTriangulate (f : List ℕ) : List Tri :=
  match f with
  | a :: rest => (rest.zip rest.tail).map fun p => (a, p.1, p.2)
  | [] => []

/-- The triangulated cube: 6 quads split into 12 triangles, with a coplanar
diagonal pair on every quad. -/
def cube_tris : List Tri := cube_quad_faces.flatMap fanTriangulate

lemma mkKey_fst_lt_snd {i j : ℕ} (h : i ≠ j) : (mkKey i j).1 < (mkKey i j).2 := by
  unfold mkKey; split <;> simp <;> omega

instance : IsTrans (ℕ × ℕ) pairLe :=
  ⟨by intro a b c hab hbc; unfold pairLe at *; omega⟩

instance : IsTotal (ℕ × ℕ) pairLe :=
  ⟨by intro a b; unfold pairLe; omega⟩

lemma mem_boundary_edges {verts : List V3} {faces : List Tri} {cd : ℚ}
    {e : ℕ × ℕ} :
    e ∈ boundary_edges verts faces cd ↔
      (∃ t ∈ faces, e ∈ edgeKeysOfTri t) ∧ keepEdge verts faces cd e = true := by
  unfold boundary_edges
  rw [List.mem_insertionSort, List.mem_filter, List.mem_dedup, List.mem_flatMap]

lemma incident_eq_nil_iff {faces : List Tri} {e : ℕ × ℕ} :
    incident faces e = [] ↔ ¬ ∃ t ∈ faces, e ∈ edgeKeysOfTri t := by
  unfold incident
  rw [List.flatMap_eq_nil_iff]
  constructor
  · rintro h ⟨t, ht, hk⟩
    have ht' : t ∈ faces.enum.map Prod.snd := by rw [List.enum_map_snd]; exact ht
    obtain ⟨q, hq, hqt⟩ := List.mem_map.mp ht'
    have hnil := h q hq
    rw [List.filterMap_eq_nil_iff] at hnil
    have := hnil e (by rw [hqt]; exact hk)
    simp at this
  · intro h q hq
    rw [List.filterMap_eq_nil_iff]
    intro k hk
    by_cases hke : k = e
    · exact absurd ⟨q.2, by
        have : q.2 ∈ faces.enum.map Prod.snd := List.mem_map_of_mem Prod.snd hq
        rw [List.enum_map_snd] at this
        exact this, hke ▸ hk⟩ h
    · simp [hke]

lemma incident_mem_keys {faces : List Tri} {e : ℕ × ℕ}
    (h : incident faces e ≠ []) : ∃ t ∈ faces, e ∈ edgeKeysOfTri t := by
  by_contra hc
  exact h (incident_eq_nil_iff.mpr hc)

/-- Claim C5: on a triangulated mesh, the edge extractor keeps an edge with
exactly one incident triangle; it keeps an edge with two incident triangles
iff abs(n0.dot n1) < coplanar_dot for the two unit normals (embedded as the
equivalent squared comparison on the raw cross products, for nondegenerate
triangles); the result is a sorted, duplicate-free list of pairs (i, j)
with i < j (given triangles with distinct vertex indices); and on the
triangulated cube it returns exactly the 12 true cube edges, no diagonals. -/
theorem claim_C5_edge_extractor (verts : List V3) (faces : List Tri) (cd : ℚ) :
    (∀ e : ℕ × ℕ, (incident faces e).length = 1 →
        e ∈ boundary_edges verts faces cd)
    ∧ (∀ e f0 f1, incident faces e = [f0, f1] →
        degenNormal (triNormal verts (faces.getD f0 (0, 0, 0))) = false →
        degenNormal (triNormal verts (faces.getD f1 (0, 0, 0))) = false →
        (e ∈ boundary_edges verts faces cd ↔
          nonCoplanar (triNormal verts (faces.getD f0 (0, 0, 0)))
            (triNormal verts (faces.getD f1 (0, 0, 0))) cd = true))
    ∧ (boundary_edges verts faces cd).Sorted pairLe
    ∧ (boundary_edges verts faces cd).Nodup
    ∧ ((∀ t ∈ faces, t.1 ≠ t.2.1 ∧ t.2.1 ≠ t.2.2 ∧ t.2.2 ≠ t.1) →
        ∀ e ∈ boundary_edges verts faces cd, e.1 < e.2)
    ∧ boundary_edges cube_verts_canonical_q cube_tris (999999 / 1000000) =
        [(0, 1), (0, 3), (0, 4), (1, 2), (1, 5), (2, 3),
         (2, 6), (3, 7), (4, 5), (4, 7), (5, 6), (6, 7)] := by
  refine ⟨?_, ?_, ?_, ?_, ?_, ?_⟩
  · intro e h1
    rw [mem_boundary_edges]
    obtain ⟨f0, hf0⟩ := List.length_eq_one.mp h1
    refine ⟨incident_mem_keys (by rw [hf0]; simp), ?_⟩
    unfold keepEdge
    rw [hf0]
  · intro e f0 f1 h2 hd0 hd1
    have hmem : ∃ t ∈ faces, e ∈ edgeKeysOfTri t :=
      incident_mem_keys (by rw [h2]; simp)
    rw [mem_boundary_edges]
    constructor
    · rintro ⟨-, hk⟩
      unfold keepEdge at hk
      rw [h2] at hk
      simp only [List.any_cons, List.any_nil, Bool.or_false, Bool.or_eq_true,
        hd0, hd1, Bool.false_eq_true, false_or] at hk
      exact hk
    · intro hnc
      refine ⟨hmem, ?_⟩
      unfold keepEdge
      rw [h2]
      simp only [List.any_cons, List.any_nil, Bool.or_false, Bool.or_eq_true,
        hd0, hd1, Bool.false_eq_true, false_or]
      exact hnc
  · exact List.sorted_insertionSort pairLe _
  · exact ((List.perm_insertionSort pairLe _).nodup_iff).mpr
      ((List.nodup_dedup _).filter _)
  · intro hdist e he
    rw [mem_boundary_edges] at he
    obtain ⟨⟨t, ht, hk⟩, -⟩ := he
    obtain ⟨h12, h23, h31⟩ := hdist t ht
    unfold edgeKeysOfTri at hk
    rcases List.mem_cons.mp hk with h | hk
    · exact h ▸ mkKey_fst_lt_snd h12
    rcases List.mem_cons.mp hk with h | hk
    · exact h ▸ mkKey_fst_lt_snd h23
    rcases List.mem_cons.mp hk with h | hk
    · exact h ▸ mkKey_fst_lt_snd h31
    · simp at hk
  · decide

/-- Witness for claim C5: a lone triangle's edge (one incident face) is
kept, and the cube diagonal (0, 2) with its two coplanar incident triangles
is dropped, both by direct application of the theorem. -/
theorem claim_C5_edge_extractor_witness :
    (0, 1) ∈ boundary_edges [⟨0, 0, 0⟩, ⟨1, 0, 0⟩, ⟨0, 1, 0⟩] [(0, 1, 2)]
        (999999 / 1000000)
    ∧ ¬ (0, 2) ∈ boundary_edges cube_verts_canonical_q cube_tris
        (999999 / 1000000) := by
  constructor
  · exact (claim_C5_edge_extractor [⟨0, 0, 0⟩, ⟨1, 0, 0⟩, ⟨0, 1, 0⟩]
      [(0, 1, 2)] (999999 / 1000000)).1 (0, 1) (by decide)
  · intro hmem
    have h := (claim_C5_edge_extractor cube_verts_canonical_q cube_tris
      (999999 / 1000000)).2.1 (0, 2) 0 1 (by decide) (by decide) (by decide)
    have : nonCoplanar (triNormal cube_verts_canonical_q (cube_tris.getD 0 (0, 0, 0)))
        (triNormal cube_verts_canonical_q (cube_tris.getD 1 (0, 0, 0)))
        (999999 / 1000000) = true := h.mp hmem
    exact absurd this (by decide)

/-! Scalars in the field ℚ(√5), represented as a + b√5 with a b : ℚ.
The golden ratio φ = (1 + √5)/2 and all icosahedron-family coordinates are
exact in this field. -/

/-- An element a + b * √5 of the real quadratic field ℚ(√5). -/
structure Q5 where
  a : ℚ
  b : ℚ
deriving DecidableEq, Repr

namespace Q5

def ofQ (q : ℚ) : Q5 := ⟨q, 0⟩

def add (x y : Q5) : Q5 := ⟨x.a + y.a, x.b + y.b⟩

def sub (x y : Q5) : Q5 := ⟨x.a - y.a, x.b - y.b⟩

def neg (x : Q5) : Q5 := ⟨-x.a, -x.b⟩

def mul (x y : Q5) : Q5 :=
  ⟨x.a * y.a + 5 * (x.b * y.b), x.a * y.b + x.b * y.a⟩

def smulQ (q : ℚ) (x : Q5) : Q5 := ⟨q * x.a, q * x.b⟩

/-- Exact sign test: a + b√5 > 0.  When the signs of a and b agree it is
immediate; otherwise compare a^2 with 5 b^2. -/
def isPos (x : Q5) : Bool :=
  if 0 ≤ x.a then
    if 0 ≤ x.b then decide (x.a ≠ 0 ∨ x.b ≠ 0)
    else decide (5 * (x.b * x.b) < x.a * x.a)
  else
    if 0 ≤ x.b then decide (x.a * x.a < 5 * (x.b * x.b))
    else false

def isNeg (x : Q5) : Bool := isPos (neg x)

/-- Exact order: x < y in ℝ. -/
def lt (x y : Q5) : Bool := isPos (sub y x)

end Q5

instance : Add Q5 := ⟨Q5.add⟩
instance : Sub Q5 := ⟨Q5.sub⟩
instance : Neg Q5 := ⟨Q5.neg⟩
instance : Mul Q5 := ⟨Q5.mul⟩
instance : Zero Q5 := ⟨⟨0, 0⟩⟩
instance : One Q5 := ⟨⟨1, 0⟩⟩
instance : Inhabited Q5 := ⟨0⟩

/-- The golden ratio (1 + sqrt 5) / 2, exact in ℚ(√5). -/
def phi : Q5 := ⟨1 / 2, 1 / 2⟩

/-- Q5-coefficient 3-vector for the topology builders. -/
structure V5 where
  x : Q5
  y : Q5
  z : Q5
deriving DecidableEq, Repr

namespace V5

def add (p q : V5) : V5 := ⟨p.x + q.x, p.y + q.y, p.z + q.z⟩

def sub (p q : V5) : V5 := ⟨p.x - q.x, p.y - q.y, p.z - q.z⟩

def smul (r : ℚ) (p : V5) : V5 := ⟨Q5.smulQ r p.x, Q5.smulQ r p.y, Q5.smulQ r p.z⟩

def smulF (s : Q5) (p : V5) : V5 := ⟨s * p.x, s * p.y, s * p.z⟩

def dot (p q : V5) : Q5 := p.x * q.x + p.y * q.y + p.z * q.z

def cross (p q : V5) : V5 :=
  ⟨p.y * q.z - p.z * q.y, p.z * q.x - p.x * q.z, p.x * q.y - p.y * q.x⟩

def normSq (p : V5) : Q5 := dot p p

end V5

instance : Add V5 := ⟨V5.add⟩
instance : Sub V5 := ⟨V5.sub⟩
instance : Inhabited V5 := ⟨⟨0, 0, 0⟩⟩

/-- Canonical icosahedron vertices (the list in icosahedron_topology before
scale_to_radius); scaling to an irrational radius is modelled at the real
level by scaledVertexLenIs below. -/
def icosahedron_verts : List V5 :=
  [⟨Q5.ofQ (-1), phi, 0⟩, ⟨Q5.ofQ 1, phi, 0⟩, ⟨Q5.ofQ (-1), -phi, 0⟩,
   ⟨Q5.ofQ 1, -phi, 0⟩, ⟨0, Q5.ofQ (-1), phi⟩, ⟨0, Q5.ofQ 1, phi⟩,
   ⟨0, Q5.ofQ (-1), -phi⟩, ⟨0, Q5.ofQ 1, -phi⟩, ⟨phi, 0, Q5.ofQ (-1)⟩,
   ⟨phi, 0, Q5.ofQ 1⟩, ⟨-phi, 0, Q5.ofQ (-1)⟩, ⟨-phi, 0, Q5.ofQ 1⟩]

/-- The 20 triangular faces of icosahedron_topology. -/
def icosahedron_faces : List Tri :=
  [(0, 11, 5), (0, 5, 1), (0, 1, 7), (0, 7, 10), (0, 10, 11),
   (1, 5, 9), (5, 11, 4), (11, 10, 2), (10, 7, 6), (7, 1, 8),
   (3, 9, 4), (3, 4, 2), (3, 2, 6), (3, 6, 8), (3, 8, 9),
   (4, 9, 5), (2, 4, 11), (6, 2, 10), (8, 6, 7), (9, 8, 1)]

/-- Canonical icosahedron topology (vertices and faces before radius
scaling). -/
def icosahedron_topology : List V5 × List Tri :=
  (icosahedron_verts, icosahedron_faces)

/-- Canonical tetrahedron topology from tetrahedron_topology. -/
def tetrahedron_topology : List V5 × List Tri :=
  ([⟨Q5.ofQ 1, Q5.ofQ 1, Q5.ofQ 1⟩, ⟨Q5.ofQ (-1), Q5.ofQ (-1), Q5.ofQ 1⟩,
    ⟨Q5.ofQ (-1), Q5.ofQ 1, Q5.ofQ (-1)⟩, ⟨Q5.ofQ 1, Q5.ofQ (-1), Q5.ofQ (-1)⟩],
   [(0, 1, 2), (0, 3, 1), (0, 2, 3), (1, 3, 2)])

/-- Canonical cube topology from cube_topology (quad faces); the rational
vertex list cube_verts_canonical_q above is the same data over ℚ. -/
def cube_topology : List V5 × List (List ℕ) :=
  ([⟨Q5.ofQ (-1), Q5.ofQ (-1), Q5.ofQ (-1)⟩, ⟨Q5.ofQ 1, Q5.ofQ (-1), Q5.ofQ (-1)⟩,
    ⟨Q5.ofQ 1, Q5.ofQ 1, Q5.ofQ (-1)⟩, ⟨Q5.ofQ (-1), Q5.ofQ 1, Q5.ofQ (-1)⟩,
    ⟨Q5.ofQ (-1), Q5.ofQ (-1), Q5.ofQ 1⟩, ⟨Q5.ofQ 1, Q5.ofQ (-1), Q5.ofQ 1⟩,
    ⟨Q5.ofQ 1, Q5.ofQ 1, Q5.ofQ 1⟩, ⟨Q5.ofQ (-1), Q5.ofQ 1, Q5.ofQ 1⟩],
   cube_quad_faces)

/-- Canonical octahedron topology from octahedron_topology. -/
def octahedron_topology : List V5 × List Tri :=
  ([⟨Q5.ofQ 1, 0, 0⟩, ⟨Q5.ofQ (-1), 0, 0⟩, ⟨0, Q5.ofQ 1, 0⟩,
    ⟨0, Q5.ofQ (-1), 0⟩, ⟨0, 0, Q5.ofQ 1⟩, ⟨0, 0, Q5.ofQ (-1)⟩],
   [(0, 2, 4), (2, 1, 4), (1, 3, 4), (3, 0, 4),
    (2, 0, 5), (1, 2, 5), (3, 1, 5), (0, 3, 5)])

/-- Interpretation of a Q5 element as the real number a + b * √5.  This is
the semantic denotation used only in theorem statements and proofs; it is
noncomputable because ℝ is, while every program definition stays
computable. -/
noncomputable def q5r (x : Q5) : ℝ := (x.a : ℝ) + (x.b : ℝ) * Real.sqrt 5

lemma q5r_add (x y : Q5) : q5r (x + y) = q5r x + q5r y := by
  show q5r (Q5.add x y) = _
  simp only [q5r, Q5.add]
  push_cast
  ring

lemma q5r_mul (x y : Q5) : q5r (x * y) = q5r x * q5r y := by
  show q5r (Q5.mul x y) = _
  simp only [q5r, Q5.mul]
  have h5 : Real.sqrt 5 * Real.sqrt 5 = 5 :=
    Real.mul_self_sqrt (by norm_num : (0:ℝ) ≤ 5)
  push_cast
  linear_combination (-(x.b : ℝ) * (y.b : ℝ)) * h5

lemma q5r_normSq (v : V5) :
    q5r (V5.normSq v) = q5r v.x * q5r v.x + q5r v.y * q5r v.y + q5r v.z * q5r v.z := by
  show q5r (V5.dot v v) = _
  show q5r (v.x * v.x + v.y * v.y + v.z * v.z) = _
  rw [q5r_add, q5r_add, q5r_mul, q5r_mul, q5r_mul]

/-- The vertex scaled by radius / |v0| (the scale factor of scale_to_radius,
whose base length is the first canonical vertex) has Euclidean length equal
to radius.  This is the statement of the spec property over ℝ. -/
def scaledVertexLenIs (radius : ℝ) (v0 v : V5) : Prop :=
  Real.sqrt
    ((radius / Real.sqrt (q5r (V5.normSq v0)) * q5r v.x) ^ 2
      + (radius / Real.sqrt (q5r (V5.normSq v0)) * q5r v.y) ^ 2
      + (radius / Real.sqrt (q5r (V5.normSq v0)) * q5r v.z) ^ 2) = radius

lemma scaledVertexLenIs_of_normSq_eq (radius : ℝ) (h : 0 < radius) (v0 v : V5)
    (hpos : 1 ≤ q5r (V5.normSq v0)) (he : V5.normSq v = V5.normSq v0) :
    scaledVertexLenIs radius v0 v := by
  unfold scaledVertexLenIs
  have hc : (0:ℝ) < q5r (V5.normSq v0) := lt_of_lt_of_le one_pos hpos
  have hsqc : Real.sqrt (q5r (V5.normSq v0)) ^ 2 = q5r (V5.normSq v0) :=
    Real.sq_sqrt hc.le
  have hs : 0 < Real.sqrt (q5r (V5.normSq v0)) := Real.sqrt_pos.mpr hc
  have key : (radius / Real.sqrt (q5r (V5.normSq v0)) * q5r v.x) ^ 2
      + (radius / Real.sqrt (q5r (V5.normSq v0)) * q5r v.y) ^ 2
      + (radius / Real.sqrt (q5r (V5.normSq v0)) * q5r v.z) ^ 2
      = radius ^ 2 := by
    have hnv : q5r v.x * q5r v.x + q5r v.y * q5r v.y + q5r v.z * q5r v.z
        = q5r (V5.normSq v0) := by rw [← q5r_normSq, he]
    field_simp
    nlinarith [hnv, hsqc]
  rw [key, Real.sqrt_sq h.le]

lemma one_le_q5r_of_bounds {x : Q5} (h1 : 0 ≤ x.b) (h2 : 1 ≤ x.a + 2 * x.b) :
    1 ≤ q5r x := by
  have h5 : (2:ℝ) ≤ Real.sqrt 5 := by
    rw [show (2:ℝ) = Real.sqrt 4 by
      rw [show (4:ℝ) = 2 ^ 2 by norm_num, Real.sqrt_sq]; norm_num]
    exact Real.sqrt_le_sqrt (by norm_num)
  unfold q5r
  have hb : (0:ℝ) ≤ (x.b : ℝ) := by exact_mod_cast h1
  have ha : (1:ℝ) ≤ (x.a : ℝ) + 2 * (x.b : ℝ) := by exact_mod_cast h2
  nlinarith [mul_le_mul_of_nonneg_left h5 hb]

/-- Claim C8: for every radius > 0 every vertex of the icosahedron,
tetrahedron, cube and octahedron canonical lists, scaled by the
scale_to_radius factor radius / |first vertex|, has Euclidean length exactly
radius; equivalently all canonical vertices of each shape have equal
squared length, which the conjunction also records, together with the fact
that each first vertex has length at least 1 (so the 1e-9 degeneracy guard
of scale_to_radius never fires). -/
theorem claim_C8_vertex_radii (radius : ℝ) (h : 0 < radius) :
    ((∀ v ∈ icosahedron_topology.1,
        V5.normSq v = V5.normSq icosahedron_topology.1.headI
        ∧ scaledVertexLenIs radius icosahedron_topology.1.headI v)
      ∧ 1 ≤ q5r (V5.normSq icosahedron_topology.1.headI))
    ∧ ((∀ v ∈ tetrahedron_topology.1,
        V5.normSq v = V5.normSq tetrahedron_topology.1.headI
        ∧ scaledVertexLenIs radius tetrahedron_topology.1.headI v)
      ∧ 1 ≤ q5r (V5.normSq tetrahedron_topology.1.headI))
    ∧ ((∀ v ∈ cube_topology.1,
        V5.normSq v = V5.normSq cube_topology.1.headI
        ∧ scaledVertexLenIs radius cube_topology.1.headI v)
      ∧ 1 ≤ q5r (V5.normSq cube_topology.1.headI))
    ∧ ((∀ v ∈ octahedron_topology.1,
        V5.normSq v = V5.normSq octahedron_topology.1.headI
        ∧ scaledVertexLenIs radius octahedron_topology.1.headI v)
      ∧ 1 ≤ q5r (V5.normSq octahedron_topology.1.headI)) := by
  have hico : 1 ≤ q5r (V5.normSq icosahedron_topology.1.headI) := by
    apply one_le_q5r_of_bounds <;> decide
  have htet : 1 ≤ q5r (V5.normSq tetrahedron_topology.1.headI) := by
    apply one_le_q5r_of_bounds <;> decide
  have hcub : 1 ≤ q5r (V5.normSq cube_topology.1.headI) := by
    apply one_le_q5r_of_bounds <;> decide
  have hoct : 1 ≤ q5r (V5.normSq octahedron_topology.1.headI) := by
    apply one_le_q5r_of_bounds <;> decide
  refine ⟨⟨?_, hico⟩, ⟨?_, htet⟩, ⟨?_, hcub⟩, ⟨?_, hoct⟩⟩ <;>
    · intro v hv
      fin_cases hv <;>
        exact ⟨by decide, scaledVertexLenIs_of_normSq_eq radius h _ _ (by
          apply one_le_q5r_of_bounds <;> decide) (by decide)⟩

/-- Witness for claim C8 at radius 1. -/
theorem claim_C8_vertex_radii_witness :
    (0:ℝ) < 1 ∧
      scaledVertexLenIs 1 icosahedron_topology.1.headI
        ⟨Q5.ofQ (-1), phi, 0⟩ := by
  refine ⟨one_pos, ?_⟩
  have h := ((claim_C8_vertex_radii 1 one_pos).1.1
    ⟨Q5.ofQ (-1), phi, 0⟩ (by decide)).2
  exact h

/-! Icosphere subdivision (subdivide_to_icosphere).  The midpoint
renormalization (v.normalized() * radius) is irrational; it is abstracted
as a function parameter renorm, applied exactly when the guarded condition
v.length > 1e-9 of the source holds.  The cache keyed by the unordered
index pair is an association list. -/

/-- Cache from unordered index pairs to the index of the created midpoint
vertex. -/
def MidCache : Type := List ((ℕ × ℕ) × ℕ)

/-- Compute or reuse the midpoint vertex of edge (i, j), mirroring the
inner mid() helper: on a cache miss the midpoint (verts[i] + verts[j]) * 0.5
is renormalized to the sphere when its length exceeds 1e-9, appended, and
cached under the unordered key. -/
def midStep (renorm : V5 → V5) (verts : List V5) (cache : MidCache)
    (i j : ℕ) : List V5 × MidCache × ℕ :=
  let key := mkKey i j
  match cache.lookup key with
  | some idx => (verts, cache, idx)
  | none =>
    let v := V5.smul (1 / 2) ((verts.getD i default).add (verts.getD j default))
    let v := if Q5.lt (Q5.ofQ (1 / 1000000000000000000)) (V5.normSq v)
      then renorm v else v
    (verts ++ [v], (key, verts.length) :: cache, verts.length)

/-- Subdivide one triangle into its four children, threading the vertex
list and midpoint cache. -/
def subdivideFace (renorm : V5 → V5) (st : List V5 × MidCache) (f : Tri) :
    (List V5 × MidCache) × List Tri :=
  let r1 := midStep renorm st.1 st.2 f.1 f.2.1
  let r2 := midStep renorm r1.1 r1.2.1 f.2.1 f.2.2
  let r3 := midStep renorm r2.1 r2.2.1 f.2.2 f.1
  ((r3.1, r3.2.1),
    [(f.1, r1.2.2, r3.2.2), (f.2.1, r2.2.2, r1.2.2),
     (f.2.2, r3.2.2, r2.2.2), (r1.2.2, r2.2.2, r3.2.2)])

/-- One subdivision pass over the face list (the body of the outer loop of
subdivide_to_icosphere, with a fresh cache). -/
def subdivPass (renorm : V5 → V5) :
    List Tri → (List V5 × MidCache) → (List V5 × MidCache) × List Tri
  | [], st => (st, [])
  | f :: rest, st =>
    let r1 := subdivideFace renorm st f
    let r2 := subdivPass renorm rest r1.1
    (r2.1, r1.2 ++ r2.2)

/-- Iterate the subdivision pass k times. -/
def subdivIter (renorm : V5 → V5) :
    ℕ → List V5 × List Tri → List V5 × List Tri
  | 0, p => p
  | k + 1, p =>
    let r := subdivPass renorm p.2 (p.1, [])
    subdivIter renorm k (r.1.1, r.2)

/-- Embedding of subdivide_to_icosphere: run max(0, subdivisions) passes. -/
def subdivide_to_icosphere (renorm : V5 → V5) (verts : List V5)
    (faces : List Tri) (subdivisions : ℤ) : List V5 × List Tri :=
  subdivIter renorm (max 0 subdivisions).toNat (verts, faces)

/-- The icosphere branch of make_shape_topology: start from the
icosahedron and subdivide max(0, subdivisions - 1) times (subdivisions = 1
means the plain icosahedron). -/
def make_icosphere_topology (renorm : V5 → V5) (sub : ℤ) :
    List V5 × List Tri :=
  subdivide_to_icosphere renorm icosahedron_topology.1 icosahedron_topology.2
    (max 0 (sub - 1))

lemma subdivPass_faces_length (renorm : V5 → V5) (faces : List Tri) :
    ∀ st, (subdivPass renorm faces st).2.length = 4 * faces.length := by
  induction faces with
  | nil => intro st; simp [subdivPass]
  | cons f rest ih =>
    intro st
    simp only [subdivPass, List.length_append, List.length_cons, ih]
    simp [subdivideFace]
    ring

lemma subdivIter_faces_length (renorm : V5 → V5) :
    ∀ (k : ℕ) (p : List V5 × List Tri),
      (subdivIter renorm k p).2.length = 4 ^ k * p.2.length := by
  intro k
  induction k with
  | zero => intro p; simp [subdivIter]
  | succ k ih =>
    intro p
    simp only [subdivIter, ih, subdivPass_faces_length]
    ring

/-- Claim C6: for every renormalization map (hence every radius > 0),
building an icosphere with subdivisions = 1 yields exactly the plain
icosahedron with 12 vertices and 20 faces, and for every subdivisions
n ≥ 1 the result has exactly 20 * 4 ^ (n - 1) triangular faces. -/
theorem claim_C6_icosphere (renorm : V5 → V5) (n : ℤ) (h : 1 ≤ n) :
    make_icosphere_topology renorm 1 = icosahedron_topology
    ∧ (make_icosphere_topology renorm 1).1.length = 12
    ∧ (make_icosphere_topology renorm 1).2.length = 20
    ∧ (make_icosphere_topology renorm n).2.length = 20 * 4 ^ (n - 1).toNat := by
  refine ⟨rfl, rfl, rfl, ?_⟩
  unfold make_icosphere_topology subdivide_to_icosphere
  rw [subdivIter_faces_length]
  have h1 : (max 0 (max 0 (n - 1))).toNat = (n - 1).toNat := by omega
  rw [h1]
  have h2 : icosahedron_topology.2.length = 20 := rfl
  rw [h2]
  ring

/-- Witness for claim C6 at n = 3 with the identity renormalization. -/
theorem claim_C6_icosphere_witness :
    (1 : ℤ) ≤ 3 ∧ (make_icosphere_topology id 3).2.length = 320 := by
  refine ⟨by decide, ?_⟩
  have h := (claim_C6_icosphere id 3 (by decide)).2.2.2
  simpa using h

/-! Dodecahedron as the dual of the icosahedron (dodecahedron_topology).

The source normalizes several vectors (the axis, the basis vectors, the
projected points, the face centroids) before comparing angles via atan2 and
before the winding sign test.  Every one of those normalizations is a
positive scalar multiple: atan2 is invariant under positive scaling of its
two arguments by a common factor, independent positive scalings of the two
basis axes preserve the sign of every pairwise 2D cross product and of each
component, and the icosahedron's 20 face centroids all share one length, so
the winding test's cross product is scaled by one positive factor.  The
embedding therefore works with the unnormalized exact vectors and decides
the identical comparisons exactly in ℚ(√5); the final
v.normalized() * radius rescaling of the vertex list is abstracted as the
function parameter renorm. -/

/-- Exact comparison of atan2 angle classes: class 0 for y < 0 (angles in
(-π, 0)), class 1 for y = 0 and x ≥ 0 (angle 0, including the origin),
class 2 for y > 0 (angles in (0, π)), class 3 for y = 0 and x < 0
(angle π). -/
def angClass (p : Q5 × Q5) : ℕ :=
  if p.2.isNeg then 0
  else if p.2.isPos then 2
  else if p.1.isNeg then 3
  else 1

/-- 2D cross product in ℚ(√5). -/
def cross2 (p q : Q5 × Q5) : Q5 := p.1 * q.2 - p.2 * q.1

/-- Exact total order equivalent to comparing atan2(p.2, p.1) with
atan2(q.2, q.1): order first by angle class; inside the open half-planes
(classes 0 and 2) the angle difference is under π, so the order is decided
by the sign of the 2D cross product. -/
def angLe (p q : Q5 × Q5) : Bool :=
  if angClass p < angClass q then true
  else if angClass q < angClass p then false
  else if angClass p = 0 ∨ angClass p = 2 then !(cross2 q p).isPos
  else true

/-- Incident icosahedron face indices of icosahedron vertex vi, in face
order with multiplicity, mirroring the incident lists of
dodecahedron_topology. -/
def icoIncident (faces : List Tri) (vi : ℕ) : List ℕ :=
  faces.enum.flatMap fun p =>
    ([p.2.1, p.2.2.1, p.2.2.2].filter (· = vi)).map fun _ => p.1

/-- Order the five dual vertices around icosahedron vertex vi by angle in
the plane orthogonal to the vertex direction, and fix the winding, exactly
as the source does (with the positive normalization factors dropped as
explained above). -/
def buildPentagon (ico_verts dverts : List V5) (vi : ℕ)
    (face_ids : List ℕ) : List ℕ :=
  let axis := ico_verts.getD vi default
  let nsqA := V5.normSq axis
  let xUnit : V5 := ⟨1, 0, 0⟩
  let yUnit : V5 := ⟨0, 1, 0⟩
  let zUnit : V5 := ⟨0, 0, 1⟩
  let ref := if Q5.lt (Q5.ofQ 100 * (axis.x * axis.x)) (Q5.ofQ 81 * nsqA)
    then xUnit else yUnit
  let xAxis := V5.sub (V5.smulF nsqA ref) (V5.smulF (V5.dot ref axis) axis)
  let xAxis := if Q5.lt (V5.normSq xAxis)
      (Q5.ofQ (1 / 1000000000000000000) * (nsqA * nsqA))
    then V5.sub (V5.smulF nsqA zUnit) (V5.smulF axis.z axis) else xAxis
  let yAxis := V5.cross axis xAxis
  let pts := face_ids.map fun fi =>
    let dv := dverts.getD fi default
    let u := V5.sub (V5.smulF nsqA dv) (V5.smulF (V5.dot dv axis) axis)
    ((V5.dot u xAxis, V5.dot u yAxis), fi)
  let sorted := List.insertionSort
    (fun a b : (Q5 × Q5) × ℕ => angLe a.1 b.1 = true) pts
  let pent := sorted.map Prod.snd
  let v0 := dverts.getD (pent.getD 0 0) default
  let v1 := dverts.getD (pent.getD 1 0) default
  let v2 := dverts.getD (pent.getD 2 0) default
  let nrm := V5.cross (V5.sub v1 v0) (V5.sub v2 v0)
  if (V5.dot nrm axis).isNeg then pent.reverse else pent

/-- Embedding of dodecahedron_topology: one dual vertex per icosahedron
face (its centroid; the uniform positive normalization is dropped, the
final scaling to the requested radius is the abstract renorm), one pentagon
per icosahedron vertex with exactly five incident faces. -/
def dodecahedron_topology (renorm : V5 → V5) : List V5 × List (List ℕ) :=
  let ico_verts := icosahedron_topology.1
  let ico_faces := icosahedron_topology.2
  let dverts := ico_faces.map fun t =>
    V5.smul (1 / 3)
      (((ico_verts.getD t.1 default).add (ico_verts.getD t.2.1 default)).add
        (ico_verts.getD t.2.2 default))
  let faces := (List.range ico_verts.length).filterMap fun vi =>
    let face_ids := icoIncident ico_faces vi
    if face_ids.length = 5
      then some (buildPentagon ico_verts dverts vi face_ids) else none
  (dverts.map renorm, faces)

set_option maxRecDepth 100000 in
/-- Claim C7: for every renormalization map (hence every radius > 0),
dodecahedron_topology returns exactly 20 vertices and 12 faces, every face
has exactly 5 vertex indices, and each vertex index occurs in exactly 3 of
the 12 faces. -/
theorem claim_C7_dodecahedron (renorm : V5 → V5) :
    (dodecahedron_topology renorm).1.length = 20
    ∧ (dodecahedron_topology renorm).2.length = 12
    ∧ ((dodecahedron_topology renorm).2.all fun f => f.length == 5) = true
    ∧ ((List.range 20).all fun i =>
        ((dodecahedron_topology renorm).2.countP fun f => decide (i ∈ f)) == 3)
      = true := by
  have hfaces : (dodecahedron_topology renorm).2 = (dodecahedron_topology id).2 := rfl
  refine ⟨?_, ?_, ?_, ?_⟩
  · unfold dodecahedron_topology
    simp only [List.length_map]
    decide
  · rw [hfaces]; decide
  · rw [hfaces]; decide
  · rw [hfaces]; decide

/-! Placement engine (choose_vertex_and_length_for_port,
choose_face_and_length_for_label) and the visibility oracle
(visible_on_solid_from_camera).

The Blender runtime pieces these functions consume are abstracted as
fields of a Host: the camera projection world_to_camera_view, the render
resolution, the solid object's world matrix (as a point map plus its
translation and normal matrix), the BVH ray cast (presented as the
equivalent segment query from the ray origin to the target point, since the
source casts along the normalized direction with the exact distance to the
target), Vector.normalized (irrational), and the 2D pixel Euclidean length
(irrational).  Every theorem below holds for every host. -/

/-- Abstract interface to the Blender runtime for one placement call. -/
structure Host where
  w2cv : V3 → V3
  resX : ℚ
  resY : ℚ
  resPct : ℚ
  mw : V3 → V3
  mwTranslation : V3
  nmat : V3 → V3
  inv : V3 → V3
  camOrigin : V3
  rayCast : V3 → V3 → Option V3
  normalizeV : V3 → V3
  len2 : ℚ → ℚ → ℚ
  verts : List V3
  polys : List (V3 × V3)
  vertexRadius : ℚ

/-- Effective render width W = resolution_x * (resolution_percentage / 100). -/
def renderW (h : Host) : ℚ := h.resX * (h.resPct / 100)

/-- Effective render height. -/
def renderH (h : Host) : ℚ := h.resY * (h.resPct / 100)

/-- Embedding of ndc_and_in_frame. -/
def ndc_and_in_frame (h : Host) (p : V3) : V3 × Bool :=
  let ndc := h.w2cv p
  (ndc, decide (0 ≤ ndc.x ∧ ndc.x ≤ 1 ∧ 0 ≤ ndc.y ∧ ndc.y ≤ 1 ∧ 0 ≤ ndc.z))

/-- Embedding of ndc_to_px, returning only the pixel point (W and H are
renderW and renderH). -/
def ndc_to_px (h : Host) (ndc : V3) : ℚ × ℚ :=
  (ndc.x * renderW h, ndc.y * renderH h)

/-- Embedding of projected_bbox_px: project every point, skip those behind
the camera, take pixel-space min and max. -/
def projected_bbox_px (h : Host) (pts : List V3) : ℚ × ℚ × ℚ × ℚ :=
  let pxs := pts.filterMap fun p =>
    let ndc := h.w2cv p
    if ndc.z < 0 then none else some (ndc_to_px h ndc)
  match pxs with
  | [] => (0, 0, 0, 0)
  | q :: rest =>
    (rest.foldl (fun m p => min m p.1) q.1,
     rest.foldl (fun m p => max m p.1) q.1,
     rest.foldl (fun m p => min m p.2) q.2,
     rest.foldl (fun m p => max m p.2) q.2)

/-- Embedding of outside_distance_to_bbox_px; the Euclidean distance in the
outside case goes through the abstract len2. -/
def outside_distance_to_bbox_px (len2 : ℚ → ℚ → ℚ) (p : ℚ × ℚ)
    (bbox : ℚ × ℚ × ℚ × ℚ) : ℚ :=
  let minx := bbox.1
  let maxx := bbox.2.1
  let miny := bbox.2.2.1
  let maxy := bbox.2.2.2
  let dx := if p.1 < minx then minx - p.1 else if maxx < p.1 then p.1 - maxx else 0
  let dy := if p.2 < miny then miny - p.2 else if maxy < p.2 then p.2 - maxy else 0
  if dx = 0 ∧ dy = 0 then
    -(min (min (p.1 - minx) (maxx - p.1)) (min (p.2 - miny) (maxy - p.2)))
  else len2 dx dy

/-- Embedding of visible_on_solid_from_camera.  Length guards are the exact
squared comparisons; the ray query from the camera origin along the
normalized direction, limited to the distance of the target, is the segment
query rayCast origin target. -/
def visible_on_solid_from_camera (h : Host) (world_pt : V3) (eps : ℚ) : Bool :=
  let vec := world_pt - h.camOrigin
  if V3.normSq vec < 1 / 1000000000000000000 then false
  else
    let origin_o := h.inv h.camOrigin
    let target_o := h.inv world_pt
    let dir_o := target_o - origin_o
    if V3.normSq dir_o < 1 / 1000000000000000000 then false
    else
      match h.rayCast origin_o target_o with
      | none => false
      | some hit_o => decide (V3.normSq (h.mw hit_o - world_pt) ≤ eps * eps)

/-- The auto_placement sub-dictionary with its source defaults. -/
structure AutoPlacementCfg where
  enabled : Bool := true
  require_visible_base : Bool := true
  require_tip_in_frame : Bool := true
  bbox_margin_px : ℚ := 40
  tip_margin_px : ℚ := 60
  silhouette_bias : ℚ := 1 / 4
  segment_len_bias : ℚ := 1 / 10
  length_samples : ℤ := 24
  unique_vertices : Bool := true
deriving DecidableEq, Repr

/-- A port spec after dictionary lookup, with the source defaults; none in
base_offset_cfg and length_cfg stands for the string AUTO. -/
structure PortSpecCfg where
  attach_index : Option ℤ := none
  attach_site_type : String := "VERTEX"
  cyl_radius : ℚ := 3 / 100
  base_offset_cfg : Option ℚ := none
  length_cfg : Option ℚ := none
  length_min : ℚ := 3 / 5
  length_max : ℚ := 14 / 5
  ap : AutoPlacementCfg := {}
deriving DecidableEq, Repr

/-- A label spec after dictionary lookup; direction is the uppercased
direction string (anything other than IN means OUT, as in the source). -/
structure LabelSpecCfg where
  direction : String := "OUT"
  attach_index : Option ℤ := none
  attach_site_type : String := "FACE"
  cyl_radius : ℚ := 3 / 100
  base_offset_cfg : Option ℚ := none
  length_cfg : Option ℚ := none
  length_min : ℚ := 3 / 5
  length_max : ℚ := 14 / 5
  ap : AutoPlacementCfg := {}
deriving DecidableEq, Repr

/-- Result of the port placement (PortPlacement dataclass). -/
structure PortPlacement where
  vertex_index : ℕ
  base_w : V3
  dir_w : V3
  length : ℚ
  tip_w : V3
deriving DecidableEq, Repr

/-- Result of the label placement (LabelPlacement dataclass). -/
structure LabelPlacement where
  face_index : ℕ
  base_w : V3
  dir_w : V3
  length : ℚ
  tip_w : V3
deriving DecidableEq, Repr

/-- The precomputed per-call quantities shared by the two search loops. -/
structure SearchCfg where
  base_offset : ℚ
  length_cfg : Option ℚ
  l_min : ℚ
  l_max : ℚ
  require_tip : Bool
  bbox_expanded : ℚ × ℚ × ℚ × ℚ
  silhouette_bias : ℚ
  seg_bias : ℚ
  length_samples : ℤ
  center_px : ℚ × ℚ
  mx : ℚ
  my : ℚ
deriving DecidableEq, Repr

/-- Build the shared search context for a port call: AUTO base offset is
max(vertex_radius, cylinder radius) * 1.05, L_max is clamped up to L_min,
the silhouette bbox is expanded by bbox_margin_px, and the tip margins are
tip_margin_px / max(1, W or H). -/
def portSearchCfg (h : Host) (spec : PortSpecCfg) : SearchCfg :=
  let W := renderW h
  let H := renderH h
  let center_ndc := h.w2cv h.mwTranslation
  let bbox := projected_bbox_px h (h.verts.map h.mw)
  let m := spec.ap.bbox_margin_px
  { base_offset := match spec.base_offset_cfg with
      | none => max (h.vertexRadius * (21 / 20)) (spec.cyl_radius * (21 / 20))
      | some b => b,
    length_cfg := spec.length_cfg,
    l_min := spec.length_min,
    l_max := if spec.length_max < spec.length_min then spec.length_min
      else spec.length_max,
    require_tip := spec.ap.require_tip_in_frame,
    bbox_expanded := (bbox.1 - m, bbox.2.1 + m, bbox.2.2.1 - m, bbox.2.2.2 + m),
    silhouette_bias := spec.ap.silhouette_bias,
    seg_bias := spec.ap.segment_len_bias,
    length_samples := spec.ap.length_samples,
    center_px := (center_ndc.x * W, center_ndc.y * H),
    mx := spec.ap.tip_margin_px / max 1 W,
    my := spec.ap.tip_margin_px / max 1 H }

/-- Build the shared search context for a label call; the AUTO base offset
is cylinder radius * 1.05. -/
def labelSearchCfg (h : Host) (spec : LabelSpecCfg) : SearchCfg :=
  let W := renderW h
  let H := renderH h
  let center_ndc := h.w2cv h.mwTranslation
  let bbox := projected_bbox_px h (h.verts.map h.mw)
  let m := spec.ap.bbox_margin_px
  { base_offset := match spec.base_offset_cfg with
      | none => spec.cyl_radius * (21 / 20)
      | some b => b,
    length_cfg := spec.length_cfg,
    l_min := spec.length_min,
    l_max := if spec.length_max < spec.length_min then spec.length_min
      else spec.length_max,
    require_tip := spec.ap.require_tip_in_frame,
    bbox_expanded := (bbox.1 - m, bbox.2.1 + m, bbox.2.2.1 - m, bbox.2.2.2 + m),
    silhouette_bias := spec.ap.silhouette_bias,
    seg_bias := spec.ap.segment_len_bias,
    length_samples := spec.ap.length_samples,
    center_px := (center_ndc.x * W, center_ndc.y * H),
    mx := spec.ap.tip_margin_px / max 1 W,
    my := spec.ap.tip_margin_px / max 1 H }

/-- The sampled lengths: max(1, length_samples) values with
t = s / (length_samples - 1) (t = 0 when length_samples <= 1) over
[l_min, l_max]. -/
def sampleLengths (cfg : SearchCfg) : List ℚ :=
  (List.range (max 1 cfg.length_samples).toNat).map fun s =>
    let t : ℚ := if cfg.length_samples ≤ 1 then 0
      else (s : ℚ) / ((cfg.length_samples : ℚ) - 1)
    cfg.l_min + t * (cfg.l_max - cfg.l_min)

/-- The in-frame-with-margin test on the tip: mx <= x <= 1 - mx,
my <= y <= 1 - my, z >= 0. -/
def tipOkAt (cfg : SearchCfg) (tip_ndc : V3) : Bool :=
  decide (cfg.mx ≤ tip_ndc.x ∧ tip_ndc.x ≤ 1 - cfg.mx ∧
    cfg.my ≤ tip_ndc.y ∧ tip_ndc.y ≤ 1 - cfg.my ∧ 0 ≤ tip_ndc.z)

/-- The score of one (site, length) candidate: the outside distance term
(inverted for inward labels, penalized by 1.5 when negative otherwise),
plus silhouette_bias times the base-to-center pixel distance, plus
segment_len_bias times the base-to-tip pixel length. -/
def scoreAt (h : Host) (cfg : SearchCfg) (wantIn : Bool) (base_px : ℚ × ℚ)
    (silhouette : ℚ) (tip_px : ℚ × ℚ) : ℚ :=
  let outd := outside_distance_to_bbox_px h.len2 tip_px cfg.bbox_expanded
  let seglen := h.len2 (tip_px.1 - base_px.1) (tip_px.2 - base_px.2)
  let out_term := if wantIn then -outd
    else if 0 ≤ outd then outd else outd * (3 / 2)
  out_term + cfg.silhouette_bias * silhouette + cfg.seg_bias * seglen

/-- Evaluate one (site, length) candidate: tip = base + dir * (base_offset
+ L); rejected when require_tip_in_frame holds and the tip misses the
margin-shrunk frame; otherwise scored. -/
def candidateAt (h : Host) (cfg : SearchCfg) (wantIn : Bool)
    (base_w dir_w : V3) (base_px : ℚ × ℚ) (silhouette : ℚ) (L : ℚ) :
    Option (ℚ × ℚ × V3) :=
  let tip_w := base_w + V3.smul (cfg.base_offset + L) dir_w
  let tip_ndc := h.w2cv tip_w
  if cfg.require_tip ∧ ¬ tipOkAt cfg tip_ndc then none
  else some (scoreAt h cfg wantIn base_px silhouette (ndc_to_px h tip_ndc), L, tip_w)

/-- The inner sampled-length loop with its -1e18 sentinel, keeping the
strictly best candidate. -/
def bestSample (h : Host) (cfg : SearchCfg) (wantIn : Bool)
    (base_w dir_w : V3) (base_px : ℚ × ℚ) (silhouette : ℚ) :
    ℚ × Option (ℚ × V3) :=
  (sampleLengths cfg).foldl
    (fun acc L =>
      match candidateAt h cfg wantIn base_w dir_w base_px silhouette L with
      | none => acc
      | some r => if acc.1 < r.1 then (r.1, some r.2) else acc)
    (-1000000000000000000, none)

/-- Best candidate at one port vertex: either the single fixed length or
the sampled best. -/
def localBestPort (h : Host) (cfg : SearchCfg) (vi : ℕ) (base_w dir_w : V3)
    (base_px : ℚ × ℚ) (silhouette : ℚ) : ℚ × Option PortPlacement :=
  match cfg.length_cfg with
  | some L =>
    match candidateAt h cfg false base_w dir_w base_px silhouette L with
    | none => (-1000000000000000000, none)
    | some r => (r.1, some ⟨vi, base_w, dir_w, r.2.1, r.2.2⟩)
  | none =>
    let r := bestSample h cfg false base_w dir_w base_px silhouette
    (r.1, r.2.map fun p => ⟨vi, base_w, dir_w, p.1, p.2⟩)

/-- Accumulator of the port _search loop. -/
structure PortAcc where
  best_any : Option PortPlacement := none
  best_any_score : ℚ := -1000000000000000000
  best_unused : Option PortPlacement := none
  best_unused_score : ℚ := -1000000000000000000
deriving DecidableEq, Repr

/-- One iteration of the port _search loop over an indexed vertex:
skip when an explicit VERTEX index is forced and differs; skip when the
base is out of frame; skip when visibility is required and the ray test
(eps = 2e-2 for vertices) fails; skip a degenerate outward direction; then
track the best overall and the best among unused vertices. -/
def portStep (h : Host) (cfg : SearchCfg) (siteType : String)
    (forcedIdx : Option ℤ) (usedSet : Option (List ℕ)) (rvb : Bool)
    (acc : PortAcc) (p : ℕ × V3) : PortAcc :=
  let vi := p.1
  if decide (siteType = "VERTEX") &&
      (match forcedIdx with | some i => decide ((vi : ℤ) ≠ i) | none => false) then acc
  else
    let base_w := h.mw p.2
    let pr := ndc_and_in_frame h base_w
    if pr.2 = false then acc
    else if rvb = true ∧
        visible_on_solid_from_camera h base_w (1 / 50) = false then acc
    else
      let base_px := ndc_to_px h pr.1
      let silhouette := h.len2 (base_px.1 - cfg.center_px.1)
        (base_px.2 - cfg.center_px.2)
      let dir0 := base_w - h.mwTranslation
      if V3.normSq dir0 < 1 / 1000000000000000000 then acc
      else
        let dir_w := h.normalizeV dir0
        let lb := localBestPort h cfg vi base_w dir_w base_px silhouette
        match lb.2 with
        | none => acc
        | some pl =>
          let acc1 := if acc.best_any_score < lb.1 then
              { acc with best_any := some pl, best_any_score := lb.1 } else acc
          if (match usedSet with | none => true | some u => decide (vi ∉ u)) then
            if acc1.best_unused_score < lb.1 then
              { acc1 with best_unused := some pl, best_unused_score := lb.1 }
            else acc1
          else acc1

/-- The port _search pass. -/
def searchPort (h : Host) (cfg : SearchCfg) (siteType : String)
    (forcedIdx : Option ℤ) (usedSet : Option (List ℕ)) (rvb : Bool) : PortAcc :=
  h.verts.enum.foldl (portStep h cfg siteType forcedIdx usedSet rvb) {}

/-- Index normalization and range check of the port call (_norm_index plus
the out-of-range fallback to AUTO). -/
def portForcedIdx (h : Host) (spec : PortSpecCfg) : Option ℤ :=
  match spec.attach_index with
  | none => none
  | some i =>
    if i < 0 then none
    else if i < 0 ∨ (h.verts.length : ℤ) ≤ i then none
    else some i

/-- used_set is threaded only when unique_vertices holds, a set was passed
in and no index is forced. -/
def portUsedSet (spec : PortSpecCfg) (used : Option (List ℕ))
    (fi : Option ℤ) : Option (List ℕ) :=
  if spec.ap.unique_vertices = true ∧ used.isSome = true ∧ fi = none
    then used else none

/-- The absolute fallback placement at vertex index 0 with length l_min. -/
def portFallback (h : Host) (cfg : SearchCfg) (v0 : V3) : PortPlacement :=
  let base_w := h.mw v0
  let dir0 := base_w - h.mwTranslation
  let dir_w := if V3.normSq dir0 < 1 / 1000000000000000000 then (⟨0, 0, 1⟩ : V3)
    else h.normalizeV dir0
  ⟨0, base_w, dir_w, cfg.l_min,
    base_w + V3.smul (cfg.base_offset + cfg.l_min) dir_w⟩

/-- The selection logic of the port call before the absolute fallback:
strict search; when the unused-restricted best is empty (with an active
used set, no forced index and visibility required) retry once relaxed and
keep its unused best, else the strict pass's unrestricted best; otherwise
prefer the unused best over the unrestricted best. -/
def choosePortBest (h : Host) (spec : PortSpecCfg)
    (used : Option (List ℕ)) : Option PortPlacement :=
  let fi := portForcedIdx h spec
  let cfg := portSearchCfg h spec
  let us := portUsedSet spec used fi
  let r1 := searchPort h cfg spec.attach_site_type fi us
    spec.ap.require_visible_base
  if r1.best_unused = none ∧ us ≠ none ∧ fi = none ∧
      spec.ap.require_visible_base = true then
    let r2 := searchPort h cfg spec.attach_site_type fi us false
    match r2.best_unused with
    | some b => some b
    | none => r1.best_any
  else
    match r1.best_unused with
    | some b => some b
    | none => r1.best_any

/-- Embedding of choose_vertex_and_length_for_port: the search result, the
absolute fallback at vertex 0, or the RuntimeError for a vertexless mesh. -/
def choose_vertex_and_length_for_port (h : Host) (spec : PortSpecCfg)
    (used : Option (List ℕ)) : Except String PortPlacement :=
  match choosePortBest h spec used with
  | some b => .ok b
  | none =>
    match h.verts with
    | [] => .error "Boundary has no vertices to attach port to."
    | v0 :: _ => .ok (portFallback h (portSearchCfg h spec) v0)

/-- One iteration of the label loop over an indexed polygon (center,
normal): skip when an explicit FACE index is forced and differs; base point
is the center projected onto the face plane along the outward normal;
direction may be inverted for inward labels; in-frame and visibility
(eps = 1e-3) gates as for ports; then the fixed-length or sampled scoring
against the single best. -/
def labelStep (h : Host) (cfg : SearchCfg) (siteType : String)
    (forcedIdx : Option ℤ) (wantIn : Bool) (rvb : Bool)
    (acc : ℚ × Option LabelPlacement) (p : ℕ × V3 × V3) :
    ℚ × Option LabelPlacement :=
  let pi := p.1
  if decide (siteType = "FACE") &&
      (match forcedIdx with | some i => decide ((pi : ℤ) ≠ i) | none => false) then acc
  else
    let tri_center_w := h.mw p.2.1
    let outward0 := h.normalizeV (h.nmat p.2.2)
    let outward := if V3.dot outward0 (tri_center_w - h.mwTranslation) < 0
      then -outward0 else outward0
    let dist := V3.dot outward (tri_center_w - h.mwTranslation)
    let base_w := h.mwTranslation + V3.smul dist outward
    let dir_w := if wantIn then -outward else outward
    let pr := ndc_and_in_frame h base_w
    if pr.2 = false then acc
    else if rvb = true ∧
        visible_on_solid_from_camera h base_w (1 / 1000) = false then acc
    else
      let base_px := ndc_to_px h pr.1
      let silhouette := h.len2 (base_px.1 - cfg.center_px.1)
        (base_px.2 - cfg.center_px.2)
      match cfg.length_cfg with
      | some L =>
        match candidateAt h cfg wantIn base_w dir_w base_px silhouette L with
        | none => acc
        | some r =>
          if acc.1 < r.1 then (r.1, some ⟨pi, base_w, dir_w, r.2.1, r.2.2⟩)
          else acc
      | none =>
        let r := bestSample h cfg wantIn base_w dir_w base_px silhouette
        match r.2 with
        | none => acc
        | some q =>
          if acc.1 < r.1 then (r.1, some ⟨pi, base_w, dir_w, q.1, q.2⟩)
          else acc

/-- The label search loop over all polygons. -/
def searchLabel (h : Host) (cfg : SearchCfg) (siteType : String)
    (forcedIdx : Option ℤ) (wantIn : Bool) (rvb : Bool) :
    ℚ × Option LabelPlacement :=
  h.polys.enum.foldl (labelStep h cfg siteType forcedIdx wantIn rvb)
    (-1000000000000000000, none)

/-- The label fallback placement at polygon index 0 with length l_min. -/
def labelFallback (h : Host) (cfg : SearchCfg) (p0 : V3 × V3) : LabelPlacement :=
  let tri_center_w := h.mw p0.1
  let d0 := h.normalizeV (h.nmat p0.2)
  let dir_w := if V3.dot d0 (tri_center_w - h.mwTranslation) < 0 then -d0 else d0
  let dist := V3.dot dir_w (tri_center_w - h.mwTranslation)
  let base_w := h.mwTranslation + V3.smul dist dir_w
  ⟨0, base_w, dir_w, cfg.l_min,
    base_w + V3.smul (cfg.base_offset + cfg.l_min) dir_w⟩

/-- The label selection before the fallback. -/
def chooseLabelBest (h : Host) (spec : LabelSpecCfg) : Option LabelPlacement :=
  (searchLabel h (labelSearchCfg h spec) spec.attach_site_type
    spec.attach_index (spec.direction = "IN")
    spec.ap.require_visible_base).2

/-- Embedding of choose_face_and_length_for_label: the search result, the
fallback at polygon 0, or the RuntimeError for a faceless mesh. -/
def choose_face_and_length_for_label (h : Host) (spec : LabelSpecCfg) :
    Except String LabelPlacement :=
  match chooseLabelBest h spec with
  | some b => .ok b
  | none =>
    match h.polys with
    | [] => .error "Boundary has no faces to attach label to."
    | p0 :: _ => .ok (labelFallback h (labelSearchCfg h spec) p0)

instance : Inhabited V3 := ⟨⟨0, 0, 0⟩⟩

/-- Claim C10: the visibility test answers false whenever the ray from the
camera origin toward the query point misses the solid entirely (the BVH
returns no hit), and whenever the query point lies within 1e-9 of the
camera origin (embedded as the squared comparison); an unoccluded point off
the surface is therefore reported not visible. -/
theorem claim_C10_visibility (h : Host) (world_pt : V3) (eps : ℚ) :
    (h.rayCast (h.inv h.camOrigin) (h.inv world_pt) = none →
      visible_on_solid_from_camera h world_pt eps = false)
    ∧ (V3.normSq (world_pt - h.camOrigin) < 1 / 1000000000000000000 →
      visible_on_solid_from_camera h world_pt eps = false) := by
  constructor
  · intro hray
    unfold visible_on_solid_from_camera
    dsimp only
    split_ifs
    · rfl
    · rfl
    · rw [hray]
  · intro hd
    unfold visible_on_solid_from_camera
    dsimp only
    rw [if_pos hd]

/-- Witness for claim C10: a host whose BVH never reports a hit answers
not visible. -/
theorem claim_C10_visibility_witness :
    visible_on_solid_from_camera
      { w2cv := id, resX := 1024, resY := 768, resPct := 100, mw := id,
        mwTranslation := ⟨0, 0, 0⟩, nmat := id, inv := id,
        camOrigin := ⟨0, 0, -10⟩, rayCast := fun _ _ => none,
        normalizeV := id, len2 := fun _ _ => 0, verts := [], polys := [],
        vertexRadius := 1 / 10 }
      ⟨1, 0, 0⟩ (1 / 1000) = false :=
  (claim_C10_visibility _ ⟨1, 0, 0⟩ (1 / 1000)).1 rfl

lemma choosePortBest_of_verts_nil (h : Host) (spec : PortSpecCfg)
    (used : Option (List ℕ)) (hv : h.verts = []) :
    choosePortBest h spec used = none := by
  unfold choosePortBest searchPort
  rw [hv]
  dsimp only [List.enum_nil, List.foldl_nil]
  split_ifs <;> rfl

/-- Claim C1: the placement search is total.  A port call errors exactly on
a vertexless mesh and a label call exactly on a faceless mesh; on any
nonempty mesh both return a placement; when nothing scored at all the
result is the documented absolute fallback (site index 0, length l_min);
and the port search retries once with require_visible_base relaxed under
the conditions of the source before falling back to the unrestricted
best. -/
theorem claim_C1_totality (h : Host) (pspec : PortSpecCfg)
    (lspec : LabelSpecCfg) (used : Option (List ℕ)) :
    (h.verts = [] →
      ∃ e, choose_vertex_and_length_for_port h pspec used = .error e)
    ∧ (h.verts ≠ [] →
      ∃ p, choose_vertex_and_length_for_port h pspec used = .ok p)
    ∧ (h.verts ≠ [] → choosePortBest h pspec used = none →
      choose_vertex_and_length_for_port h pspec used =
        .ok (portFallback h (portSearchCfg h pspec) h.verts.headI))
    ∧ (portFallback h (portSearchCfg h pspec) h.verts.headI).vertex_index = 0
    ∧ (portFallback h (portSearchCfg h pspec) h.verts.headI).length
        = (portSearchCfg h pspec).l_min
    ∧ ((searchPort h (portSearchCfg h pspec) pspec.attach_site_type
          (portForcedIdx h pspec) (portUsedSet pspec used (portForcedIdx h pspec))
          pspec.ap.require_visible_base).best_unused = none →
        portUsedSet pspec used (portForcedIdx h pspec) ≠ none →
        portForcedIdx h pspec = none →
        pspec.ap.require_visible_base = true →
        choosePortBest h pspec used =
          (match (searchPort h (portSearchCfg h pspec) pspec.attach_site_type
              (portForcedIdx h pspec)
              (portUsedSet pspec used (portForcedIdx h pspec)) false).best_unused
            with
          | some b => some b
          | none => (searchPort h (portSearchCfg h pspec) pspec.attach_site_type
              (portForcedIdx h pspec)
              (portUsedSet pspec used (portForcedIdx h pspec))
              pspec.ap.require_visible_base).best_any))
    ∧ (h.polys = [] →
      ∃ e, choose_face_and_length_for_label h lspec = .error e)
    ∧ (h.polys ≠ [] →
      ∃ p, choose_face_and_length_for_label h lspec = .ok p)
    ∧ (h.polys ≠ [] → chooseLabelBest h lspec = none →
      choose_face_and_length_for_label h lspec =
        .ok (labelFallback h (labelSearchCfg h lspec) h.polys.headI))
    ∧ (labelFallback h (labelSearchCfg h lspec) h.polys.headI).face_index = 0
    ∧ (labelFallback h (labelSearchCfg h lspec) h.polys.headI).length
        = (labelSearchCfg h lspec).l_min := by
  refine ⟨?_, ?_, ?_, rfl, rfl, ?_, ?_, ?_, ?_, rfl, rfl⟩
  · intro hv
    refine ⟨"Boundary has no vertices to attach port to.", ?_⟩
    unfold choose_vertex_and_length_for_port
    rw [choosePortBest_of_verts_nil h pspec used hv, hv]
  · intro hv
    cases hb : choosePortBest h pspec used with
    | some b =>
      exact ⟨b, by unfold choose_vertex_and_length_for_port; rw [hb]⟩
    | none =>
      cases hvs : h.verts with
      | nil => exact absurd hvs hv
      | cons v0 tl =>
        refine ⟨portFallback h (portSearchCfg h pspec) v0, ?_⟩
        unfold choose_vertex_and_length_for_port
        rw [hb, hvs]
  · intro hv hb
    cases hvs : h.verts with
    | nil => exact absurd hvs hv
    | cons v0 tl =>
      unfold choose_vertex_and_length_for_port
      rw [hb, hvs]
      simp [List.headI]
  · intro h1 h2 h3 h4
    unfold choosePortBest
    rw [if_pos ⟨h1, h2, h3, h4⟩]
  · intro hp
    refine ⟨"Boundary has no faces to attach label to.", ?_⟩
    have hb : chooseLabelBest h lspec = none := by
      unfold chooseLabelBest searchLabel
      rw [hp]
      rfl
    unfold choose_face_and_length_for_label
    rw [hb, hp]
  · intro hp
    cases hb : chooseLabelBest h lspec with
    | some b =>
      exact ⟨b, by unfold choose_face_and_length_for_label; rw [hb]⟩
    | none =>
      cases hps : h.polys with
      | nil => exact absurd hps hp
      | cons p0 tl =>
        refine ⟨labelFallback h (labelSearchCfg h lspec) p0, ?_⟩
        unfold choose_face_and_length_for_label
        rw [hb, hps]
  · intro hp hb
    cases hps : h.polys with
    | nil => exact absurd hps hp
    | cons p0 tl =>
      unfold choose_face_and_length_for_label
      rw [hb, hps]
      simp [List.headI]

/-- Host used by witnesses and counterexamples: constant projection into
the middle of the frame, every ray hits its target exactly, identity
transforms, a degenerate (everywhere zero) pixel metric, one boundary with
two faces. -/
def wHost : Host where
  w2cv := fun _ => ⟨1 / 2, 1 / 2, 1⟩
  resX := 1024
  resY := 768
  resPct := 100
  mw := id
  mwTranslation := ⟨0, 0, 0⟩
  nmat := id
  inv := id
  camOrigin := ⟨0, 0, -10⟩
  rayCast := fun _ t => some t
  normalizeV := id
  len2 := fun _ _ => 0
  verts := [⟨1, 0, 0⟩, ⟨2, 0, 0⟩]
  polys := [(⟨1, 0, 0⟩, ⟨1, 0, 0⟩), (⟨0, 2, 0⟩, ⟨0, 1, 0⟩)]
  vertexRadius := 1 / 10

/-- Witness for claim C1 on the nonempty witness host and on an empty
host. -/
theorem claim_C1_totality_witness :
    (∃ p, choose_vertex_and_length_for_port wHost {} (some []) = .ok p)
    ∧ (∃ e, choose_face_and_length_for_label { wHost with polys := [] } {}
        = .error e) := by
  constructor
  · exact (claim_C1_totality wHost {} {} (some [])).2.1 (by decide)
  · exact (claim_C1_totality { wHost with polys := [] } {} {} none).2.2.2.2.2.2.1
      rfl

lemma portForcedIdx_out_of_range (h : Host) (spec : PortSpecCfg) (i : ℤ)
    (hi : ¬ (0 ≤ i ∧ i < (h.verts.length : ℤ))) :
    portForcedIdx h { spec with attach_index := some i } = none := by
  unfold portForcedIdx
  dsimp only
  split_ifs with h1 h2
  · rfl
  · rfl
  · omega

lemma foldl_skip {α β : Type} (f : β → α → β) (l : List α) (init : β)
    (hf : ∀ b a, a ∈ l → f b a = b) : l.foldl f init = init := by
  induction l generalizing init with
  | nil => rfl
  | cons a rest ih =>
    rw [List.foldl_cons, hf init a (List.mem_cons_self a rest)]
    exact ih init fun b x hx => hf b x (List.mem_cons_of_mem a hx)

lemma enum_fst_lt_length {α : Type} {l : List α} {q : ℕ × α}
    (hq : q ∈ l.enum) : q.1 < l.length := by
  have h1 := List.mem_enum_iff_getElem?.mp hq
  exact (List.getElem?_eq_some.mp h1).1

lemma searchLabel_forced_out_of_range (h : Host) (cfg : SearchCfg) (i : ℤ)
    (wantIn rvb : Bool) (hi : ¬ (0 ≤ i ∧ i < (h.polys.length : ℤ))) :
    searchLabel h cfg "FACE" (some i) wantIn rvb
      = (-1000000000000000000, none) := by
  unfold searchLabel
  apply foldl_skip
  intro b q hq
  have hlt : q.1 < h.polys.length := enum_fst_lt_length hq
  have hne : (q.1 : ℤ) ≠ i := by omega
  unfold labelStep
  rw [if_pos]
  simp [hne]

lemma chooseLabelBest_forced_out_of_range (h : Host) (spec : LabelSpecCfg)
    (i : ℤ) (hsite : spec.attach_site_type = "FACE")
    (hi : ¬ (0 ≤ i ∧ i < (h.polys.length : ℤ))) :
    chooseLabelBest h { spec with attach_index := some i } = none := by
  unfold chooseLabelBest
  have hst : ({ spec with attach_index := some i } : LabelSpecCfg).attach_site_type
      = "FACE" := hsite
  rw [hst]
  rw [searchLabel_forced_out_of_range h _ i _ _ hi]

instance instDecidableEqExcept {e a : Type} [DecidableEq e] [DecidableEq a] :
    DecidableEq (Except e a) := fun x y =>
  match x, y with
  | .ok u, .ok v =>
    if h : u = v then isTrue (by rw [h]) else
      isFalse (by intro hh; injection hh; contradiction)
  | .error u, .error v =>
    if h : u = v then isTrue (by rw [h]) else
      isFalse (by intro hh; injection hh; contradiction)
  | .ok _, .error _ => isFalse (by intro hh; injection hh)
  | .error _, .ok _ => isFalse (by intro hh; injection hh)

/-- Counterexample to claim C2: on the witness host (two faces), a label
whose explicit attach index 5 is out of range does not behave like AUTO:
the AUTO search returns face 0 with the configured length 2, while the
out-of-range index falls back to face 0 with length l_min = 3/5. -/
theorem claim_C2_counterexample :
    choose_face_and_length_for_label wHost
        { length_cfg := some 2, attach_index := some 5 }
      ≠ choose_face_and_length_for_label wHost
        { length_cfg := some 2, attach_index := none } := by
  decide

/-- Claim C2 as amended: an out-of-range explicit attach index degrades to
AUTO for ports (the two calls are equal); for labels, an out-of-range FACE
index matches no polygon, so nothing scores and the call returns the
documented fallback placement at face 0 with length l_min instead of an
AUTO search (and no error is raised). -/
theorem claim_C2_out_of_range_amended :
    (∀ (h : Host) (pspec : PortSpecCfg) (used : Option (List ℕ)) (i : ℤ),
      ¬ (0 ≤ i ∧ i < (h.verts.length : ℤ)) →
      choose_vertex_and_length_for_port h
          { pspec with attach_index := some i } used
        = choose_vertex_and_length_for_port h
          { pspec with attach_index := none } used)
    ∧ (∀ (h : Host) (lspec : LabelSpecCfg) (i : ℤ),
      lspec.attach_site_type = "FACE" →
      ¬ (0 ≤ i ∧ i < (h.polys.length : ℤ)) →
      h.polys ≠ [] →
      choose_face_and_length_for_label h { lspec with attach_index := some i }
        = .ok (labelFallback h
            (labelSearchCfg h { lspec with attach_index := some i })
            h.polys.headI)) := by
  constructor
  · intro h pspec used i hi
    unfold choose_vertex_and_length_for_port choosePortBest
    rw [portForcedIdx_out_of_range h pspec i hi]
    rfl
  · intro h lspec i hsite hi hp
    have hb := chooseLabelBest_forced_out_of_range h lspec i hsite hi
    cases hps : h.polys with
    | nil => exact absurd hps hp
    | cons p0 tl =>
      unfold choose_face_and_length_for_label
      rw [hb, hps]
      simp [List.headI]

/-- Witness for the amended claim C2 at concrete out-of-range indices on
the witness host. -/
theorem claim_C2_out_of_range_amended_witness :
    (choose_vertex_and_length_for_port wHost
        ({ attach_index := some 9 } : PortSpecCfg) (some [])
      = choose_vertex_and_length_for_port wHost
        ({ attach_index := none } : PortSpecCfg) (some []))
    ∧ (choose_face_and_length_for_label wHost
        ({ attach_index := some 9 } : LabelSpecCfg)
      = .ok (labelFallback wHost
          (labelSearchCfg wHost ({ attach_index := some 9 } : LabelSpecCfg))
          wHost.polys.headI)) := by
  constructor
  · exact claim_C2_out_of_range_amended.1 wHost {} (some []) 9 (by decide)
  · exact claim_C2_out_of_range_amended.2 wHost {} 9 rfl (by decide) (by decide)

lemma portStep_used_ext (h : Host) (cfg : SearchCfg) (st : String)
    (fi : Option ℤ) (rvb : Bool) {u1 u2 : List ℕ}
    (hm : ∀ x, x ∈ u1 ↔ x ∈ u2) (acc : PortAcc) (p : ℕ × V3) :
    portStep h cfg st fi (some u1) rvb acc p
      = portStep h cfg st fi (some u2) rvb acc p := by
  have hd : decide (p.1 ∉ u1) = decide (p.1 ∉ u2) := by simp [hm p.1]
  unfold portStep
  dsimp only
  rw [hd]

lemma searchPort_used_ext (h : Host) (cfg : SearchCfg) (st : String)
    (fi : Option ℤ) (rvb : Bool) {u1 u2 : List ℕ}
    (hm : ∀ x, x ∈ u1 ↔ x ∈ u2) :
    searchPort h cfg st fi (some u1) rvb
      = searchPort h cfg st fi (some u2) rvb := by
  unfold searchPort
  exact List.foldl_ext _ _ _ fun acc p _ => portStep_used_ext h cfg st fi rvb hm acc p

lemma portUsedSet_some (spec : PortSpecCfg) (u : List ℕ) (fi : Option ℤ) :
    portUsedSet spec (some u) fi
      = if spec.ap.unique_vertices = true ∧ fi = none then some u else none := by
  unfold portUsedSet
  simp

/-- Claim C9: placement is deterministic.  Both placement functions are
pure functions of their inputs in this embedding; in addition the port
search depends on the UsedVertexSet only through membership, so any two
set representations with identical contents give identical Placement
results. -/
theorem claim_C9_determinism :
    (∀ (h : Host) (spec : PortSpecCfg) (u1 u2 : List ℕ),
      (∀ x, x ∈ u1 ↔ x ∈ u2) →
      choose_vertex_and_length_for_port h spec (some u1)
        = choose_vertex_and_length_for_port h spec (some u2))
    ∧ (∀ (h : Host) (spec : LabelSpecCfg),
      choose_face_and_length_for_label h spec
        = choose_face_and_length_for_label h spec) := by
  refine ⟨?_, fun h spec => rfl⟩
  intro h spec u1 u2 hm
  unfold choose_vertex_and_length_for_port choosePortBest
  dsimp only
  rw [portUsedSet_some, portUsedSet_some]
  by_cases hcond : spec.ap.unique_vertices = true ∧ portForcedIdx h spec = none
  · rw [if_pos hcond, if_pos hcond]
    rw [searchPort_used_ext h _ _ _ _ hm, searchPort_used_ext h _ _ _ _ hm]
    have hA : ((searchPort h (portSearchCfg h spec) spec.attach_site_type
          (portForcedIdx h spec) (some u2)
          spec.ap.require_visible_base).best_unused = none
        ∧ (some u1 : Option (List ℕ)) ≠ none ∧ portForcedIdx h spec = none
        ∧ spec.ap.require_visible_base = true)
        ↔ ((searchPort h (portSearchCfg h spec) spec.attach_site_type
          (portForcedIdx h spec) (some u2)
          spec.ap.require_visible_base).best_unused = none
        ∧ (some u2 : Option (List ℕ)) ≠ none ∧ portForcedIdx h spec = none
        ∧ spec.ap.require_visible_base = true) := by
      simp
    rw [if_congr hA rfl rfl]
  · rw [if_neg hcond, if_neg hcond]

/-- Witness for claim C9: two representations of the same used set give
the same placement on the witness host. -/
theorem claim_C9_determinism_witness :
    choose_vertex_and_length_for_port wHost {} (some [0, 0])
      = choose_vertex_and_length_for_port wHost {} (some [0]) := by
  exact claim_C9_determinism.1 wHost {} [0, 0] [0] (by intro x; simp)

lemma foldl_inv {α σ : Type} (step : σ → α → σ) (Inv : σ → Prop)
    (hstep : ∀ s a, Inv s → Inv (step s a)) :
    ∀ (l : List α) (s : σ), Inv s → Inv (l.foldl step s) := by
  intro l
  induction l with
  | nil => intro s hs; exact hs
  | cons a rest ih =>
    intro s hs
    rw [List.foldl_cons]
    exact ih _ (hstep s a hs)

lemma candidateAt_some_tip {h : Host} {cfg : SearchCfg} {wantIn : Bool}
    {bw dw : V3} {bpx : ℚ × ℚ} {sil L : ℚ} {r : ℚ × ℚ × V3}
    (hr : candidateAt h cfg wantIn bw dw bpx sil L = some r)
    (hreq : cfg.require_tip = true) :
    tipOkAt cfg (h.w2cv r.2.2) = true := by
  unfold candidateAt at hr
  dsimp only at hr
  split_ifs at hr with hc
  all_goals first
    | (obtain rfl := Option.some.inj hr
       simp only [hreq, true_and, not_not] at hc
       exact hc)
    | simp at hr

lemma foldlSample_inv (h : Host) (cfg : SearchCfg) (wantIn : Bool)
    (bw dw : V3) (bpx : ℚ × ℚ) (sil : ℚ) (P : ℚ × V3 → Prop)
    (hstep : ∀ L r, candidateAt h cfg wantIn bw dw bpx sil L = some r → P r.2) :
    ∀ (Ls : List ℚ) (acc : ℚ × Option (ℚ × V3)),
      (∀ q, acc.2 = some q → P q) →
      ∀ q, (Ls.foldl (fun acc L =>
          match candidateAt h cfg wantIn bw dw bpx sil L with
          | none => acc
          | some r => if acc.1 < r.1 then (r.1, some r.2) else acc) acc).2
        = some q → P q := by
  intro Ls
  induction Ls with
  | nil => intro acc hacc q hq; exact hacc q hq
  | cons L rest ih =>
    intro acc hacc q hq
    rw [List.foldl_cons] at hq
    refine ih _ ?_ q hq
    intro q' hq'
    rcases hc : candidateAt h cfg wantIn bw dw bpx sil L with - | r <;>
      rw [hc] at hq' <;> dsimp only at hq'
    · exact hacc q' hq'
    · by_cases hlt : acc.1 < r.1
      · rw [if_pos hlt] at hq'
        dsimp only at hq'
        obtain rfl := Option.some.inj hq'
        exact hstep L r hc
      · rw [if_neg hlt] at hq'
        exact hacc q' hq'

lemma bestSample_some (h : Host) (cfg : SearchCfg) (wantIn : Bool)
    (bw dw : V3) (bpx : ℚ × ℚ) (sil : ℚ) (P : ℚ × V3 → Prop)
    (hstep : ∀ L r, candidateAt h cfg wantIn bw dw bpx sil L = some r → P r.2)
    {q : ℚ × V3} (hq : (bestSample h cfg wantIn bw dw bpx sil).2 = some q) :
    P q := by
  unfold bestSample at hq
  exact foldlSample_inv h cfg wantIn bw dw bpx sil P hstep _ _ (by simp) q hq

lemma localBestPort_some_tip {h : Host} {cfg : SearchCfg} {vi : ℕ}
    {bw dw : V3} {bpx : ℚ × ℚ} {sil : ℚ} {pl : PortPlacement}
    (hpl : (localBestPort h cfg vi bw dw bpx sil).2 = some pl)
    (hreq : cfg.require_tip = true) :
    tipOkAt cfg (h.w2cv pl.tip_w) = true := by
  unfold localBestPort at hpl
  rcases hlc : cfg.length_cfg with - | L
  · rw [hlc] at hpl
    dsimp only at hpl
    obtain ⟨q, hq, rfl⟩ := Option.map_eq_some'.mp hpl
    exact bestSample_some h cfg false bw dw bpx sil
      (fun q => tipOkAt cfg (h.w2cv q.2) = true)
      (fun L r hr => candidateAt_some_tip hr hreq) hq
  · rw [hlc] at hpl
    dsimp only at hpl
    rcases hc : candidateAt h cfg false bw dw bpx sil L with - | r
    · rw [hc] at hpl; simp at hpl
    · rw [hc] at hpl
      dsimp only at hpl
      obtain rfl := Option.some.inj hpl
      exact candidateAt_some_tip hc hreq

lemma localBestPort_some_index {h : Host} {cfg : SearchCfg} {vi : ℕ}
    {bw dw : V3} {bpx : ℚ × ℚ} {sil : ℚ} {pl : PortPlacement}
    (hpl : (localBestPort h cfg vi bw dw bpx sil).2 = some pl) :
    pl.vertex_index = vi := by
  unfold localBestPort at hpl
  rcases hlc : cfg.length_cfg with - | L
  · rw [hlc] at hpl
    dsimp only at hpl
    obtain ⟨q, hq, rfl⟩ := Option.map_eq_some'.mp hpl
    rfl
  · rw [hlc] at hpl
    dsimp only at hpl
    rcases hc : candidateAt h cfg false bw dw bpx sil L with - | r
    · rw [hc] at hpl; simp at hpl
    · rw [hc] at hpl
      dsimp only at hpl
      obtain rfl := Option.some.inj hpl
      rfl

/-- Search invariant: every placement stored in the accumulator satisfies
P, and placements stored as the best unused candidate avoid the used
set. -/
def PortAccInv (u : Option (List ℕ)) (P : PortPlacement → Prop)
    (acc : PortAcc) : Prop :=
  (∀ pl, acc.best_any = some pl → P pl)
  ∧ (∀ pl, acc.best_unused = some pl →
      P pl ∧ ∀ uu, u = some uu → pl.vertex_index ∉ uu)

lemma portStep_inv (h : Host) (cfg : SearchCfg) (st : String)
    (fi : Option ℤ) (u : Option (List ℕ)) (rvb : Bool)
    (P : PortPlacement → Prop)
    (hP : ∀ vi bw dw bpx sil pl,
      (localBestPort h cfg vi bw dw bpx sil).2 = some pl → P pl)
    (acc : PortAcc) (p : ℕ × V3) (hacc : PortAccInv u P acc) :
    PortAccInv u P (portStep h cfg st fi u rvb acc p) := by
  unfold portStep
  dsimp only
  split
  · exact hacc
  split
  · exact hacc
  split
  · exact hacc
  split
  · exact hacc
  rcases hlb : (localBestPort h cfg p.1 (h.mw p.2)
      (h.normalizeV (h.mw p.2 - h.mwTranslation))
      (ndc_to_px h (ndc_and_in_frame h (h.mw p.2)).1)
      (h.len2 ((ndc_to_px h (ndc_and_in_frame h (h.mw p.2)).1).1 - cfg.center_px.1)
        ((ndc_to_px h (ndc_and_in_frame h (h.mw p.2)).1).2 - cfg.center_px.2))).2
    with - | pl
  · exact hacc
  · dsimp only
    have hPpl : P pl := hP _ _ _ _ _ _ hlb
    have hidx : pl.vertex_index = p.1 := localBestPort_some_index hlb
    split_ifs with hu <;>
      refine ⟨fun pl' hpl' => ?_, fun pl' hpl' => ?_⟩ <;>
      try dsimp only at hpl'
    all_goals first
      | exact hacc.1 pl' hpl'
      | exact hacc.2 pl' hpl'
      | (obtain rfl := Option.some.inj hpl'
         exact hPpl)
      | (obtain rfl := Option.some.inj hpl'
         refine ⟨hPpl, fun uu huu => ?_⟩
         rw [hidx]
         rw [huu] at hu
         simpa using hu)

lemma searchPort_inv (h : Host) (cfg : SearchCfg) (st : String)
    (fi : Option ℤ) (u : Option (List ℕ)) (rvb : Bool)
    (P : PortPlacement → Prop)
    (hP : ∀ vi bw dw bpx sil pl,
      (localBestPort h cfg vi bw dw bpx sil).2 = some pl → P pl) :
    PortAccInv u P (searchPort h cfg st fi u rvb) := by
  unfold searchPort
  refine foldl_inv _ _ (fun s a hs => portStep_inv h cfg st fi u rvb P hP s a hs)
    _ _ ?_
  exact ⟨fun pl hpl => by simp at hpl, fun pl hpl => by simp at hpl⟩

lemma choosePortBest_some_inv (h : Host) (spec : PortSpecCfg)
    (used : Option (List ℕ)) (P : PortPlacement → Prop)
    (hP : ∀ vi bw dw bpx sil pl,
      (localBestPort h (portSearchCfg h spec) vi bw dw bpx sil).2 = some pl → P pl)
    {p : PortPlacement} (hp : choosePortBest h spec used = some p) : P p := by
  have inv1 := searchPort_inv h (portSearchCfg h spec) spec.attach_site_type
    (portForcedIdx h spec) (portUsedSet spec used (portForcedIdx h spec))
    spec.ap.require_visible_base P hP
  have inv2 := searchPort_inv h (portSearchCfg h spec) spec.attach_site_type
    (portForcedIdx h spec) (portUsedSet spec used (portForcedIdx h spec))
    false P hP
  unfold choosePortBest at hp
  dsimp only at hp
  split_ifs at hp with hcond
  · rcases h2 : (searchPort h (portSearchCfg h spec) spec.attach_site_type
        (portForcedIdx h spec) (portUsedSet spec used (portForcedIdx h spec))
        false).best_unused with - | b
    · rw [h2] at hp
      exact inv1.1 p hp
    · rw [h2] at hp
      obtain rfl := Option.some.inj hp
      exact (inv2.2 _ h2).1
  · rcases h1 : (searchPort h (portSearchCfg h spec) spec.attach_site_type
        (portForcedIdx h spec) (portUsedSet spec used (portForcedIdx h spec))
        spec.ap.require_visible_base).best_unused with - | b
    · rw [h1] at hp
      exact inv1.1 p hp
    · rw [h1] at hp
      obtain rfl := Option.some.inj hp
      exact (inv1.2 _ h1).1

set_option maxHeartbeats 1600000 in
lemma labelStep_tip (h : Host) (cfg : SearchCfg) (st : String)
    (fi : Option ℤ) (wantIn rvb : Bool) (hreq : cfg.require_tip = true)
    (acc : ℚ × Option LabelPlacement) (p : ℕ × V3 × V3)
    (hacc : ∀ pl, acc.2 = some pl → tipOkAt cfg (h.w2cv pl.tip_w) = true) :
    ∀ pl, (labelStep h cfg st fi wantIn rvb acc p).2 = some pl →
      tipOkAt cfg (h.w2cv pl.tip_w) = true := by
  intro pl hpl
  unfold labelStep at hpl
  dsimp only at hpl
  repeat' split at hpl
  all_goals
    first
      | exact hacc pl hpl
      | (dsimp only at hpl
         obtain rfl := Option.some.inj hpl
         first
           | exact candidateAt_some_tip (by assumption) hreq
           | exact bestSample_some h cfg wantIn _ _ _ _
               (fun q => tipOkAt cfg (h.w2cv q.2) = true)
               (fun L r hr => candidateAt_some_tip hr hreq) (by assumption))

lemma chooseLabelBest_some_tip (h : Host) (spec : LabelSpecCfg)
    {p : LabelPlacement}
    (hreq : (labelSearchCfg h spec).require_tip = true)
    (hp : chooseLabelBest h spec = some p) :
    tipOkAt (labelSearchCfg h spec) (h.w2cv p.tip_w) = true := by
  unfold chooseLabelBest searchLabel at hp
  have := foldl_inv
    (labelStep h (labelSearchCfg h spec) spec.attach_site_type
      spec.attach_index (spec.direction = "IN") spec.ap.require_visible_base)
    (fun acc => ∀ pl, acc.2 = some pl →
      tipOkAt (labelSearchCfg h spec) (h.w2cv pl.tip_w) = true)
    (fun s a hs => labelStep_tip h (labelSearchCfg h spec) _ _ _ _ hreq s a hs)
    h.polys.enum (-1000000000000000000, none) (by simp)
  exact this p hp

lemma tip_bounds {m W x : ℚ} (hW : 1 ≤ W) (h1 : m / max 1 W ≤ x)
    (h2 : x ≤ 1 - m / max 1 W) : m ≤ x * W ∧ x * W ≤ W - m := by
  have hmax : max 1 W = W := max_eq_right hW
  have hWpos : (0 : ℚ) < W := lt_of_lt_of_le one_pos hW
  rw [hmax] at h1 h2
  constructor
  · have h3 := mul_le_mul_of_nonneg_right h1 hWpos.le
    rwa [div_mul_cancel₀ _ hWpos.ne'] at h3
  · have h3 := mul_le_mul_of_nonneg_right h2 hWpos.le
    rwa [sub_mul, one_mul, div_mul_cancel₀ _ hWpos.ne'] at h3

lemma tipOk_px (h : Host) (cfg : SearchCfg) (margin : ℚ)
    (hmx : cfg.mx = margin / max 1 (renderW h))
    (hmy : cfg.my = margin / max 1 (renderH h))
    (hW : 1 ≤ renderW h) (hH : 1 ≤ renderH h) {tipn : V3}
    (hok : tipOkAt cfg tipn = true) :
    margin ≤ tipn.x * renderW h
    ∧ tipn.x * renderW h ≤ renderW h - margin
    ∧ margin ≤ tipn.y * renderH h
    ∧ tipn.y * renderH h ≤ renderH h - margin
    ∧ 0 ≤ tipn.z := by
  unfold tipOkAt at hok
  rw [decide_eq_true_eq] at hok
  obtain ⟨h1, h2, h3, h4, h5⟩ := hok
  rw [hmx] at h1 h2
  rw [hmy] at h3 h4
  obtain ⟨a1, a2⟩ := tip_bounds hW h1 h2
  obtain ⟨b1, b2⟩ := tip_bounds hH h3 h4
  exact ⟨a1, a2, b1, b2, h5⟩

/-- Claim C4: for any port or label placement computed with
require_tip_in_frame = true and a sane resolution (at least one pixel in
each direction), a placement produced by the search (not the absolute
fallback) has its tip's pixel coordinates inside
[tip_margin_px, resolution - tip_margin_px] on both axes with non-negative
NDC depth; and every returned placement either comes from the search or is
exactly the documented fallback placement. -/
theorem claim_C4_tip_in_frame :
    (∀ (h : Host) (spec : PortSpecCfg) (used : Option (List ℕ))
        (p : PortPlacement),
      spec.ap.require_tip_in_frame = true → 1 ≤ renderW h → 1 ≤ renderH h →
      choosePortBest h spec used = some p →
      spec.ap.tip_margin_px ≤ (h.w2cv p.tip_w).x * renderW h
      ∧ (h.w2cv p.tip_w).x * renderW h ≤ renderW h - spec.ap.tip_margin_px
      ∧ spec.ap.tip_margin_px ≤ (h.w2cv p.tip_w).y * renderH h
      ∧ (h.w2cv p.tip_w).y * renderH h ≤ renderH h - spec.ap.tip_margin_px
      ∧ 0 ≤ (h.w2cv p.tip_w).z)
    ∧ (∀ (h : Host) (spec : PortSpecCfg) (used : Option (List ℕ))
        (p : PortPlacement),
      choose_vertex_and_length_for_port h spec used = .ok p →
      choosePortBest h spec used = some p
      ∨ p = portFallback h (portSearchCfg h spec) h.verts.headI)
    ∧ (∀ (h : Host) (spec : LabelSpecCfg) (p : LabelPlacement),
      spec.ap.require_tip_in_frame = true → 1 ≤ renderW h → 1 ≤ renderH h →
      chooseLabelBest h spec = some p →
      spec.ap.tip_margin_px ≤ (h.w2cv p.tip_w).x * renderW h
      ∧ (h.w2cv p.tip_w).x * renderW h ≤ renderW h - spec.ap.tip_margin_px
      ∧ spec.ap.tip_margin_px ≤ (h.w2cv p.tip_w).y * renderH h
      ∧ (h.w2cv p.tip_w).y * renderH h ≤ renderH h - spec.ap.tip_margin_px
      ∧ 0 ≤ (h.w2cv p.tip_w).z)
    ∧ (∀ (h : Host) (spec : LabelSpecCfg) (p : LabelPlacement),
      choose_face_and_length_for_label h spec = .ok p →
      chooseLabelBest h spec = some p
      ∨ p = labelFallback h (labelSearchCfg h spec) h.polys.headI) := by
  refine ⟨?_, ?_, ?_, ?_⟩
  · intro h spec used p hreq hW hH hp
    have hreq' : (portSearchCfg h spec).require_tip = true := hreq
    have hok := choosePortBest_some_inv h spec used
      (fun pl => tipOkAt (portSearchCfg h spec) (h.w2cv pl.tip_w) = true)
      (fun vi bw dw bpx sil pl hpl => localBestPort_some_tip hpl hreq') hp
    exact tipOk_px h (portSearchCfg h spec) spec.ap.tip_margin_px rfl rfl hW hH hok
  · intro h spec used p hp
    unfold choose_vertex_and_length_for_port at hp
    split at hp
    · left
      obtain rfl := Except.ok.inj hp
      assumption
    · split at hp
      · exact absurd hp (by simp)
      · right
        obtain rfl := Except.ok.inj hp
        rename_i v0 tl hv
        rw [hv]
        simp [List.headI]
  · intro h spec p hreq hW hH hp
    have hreq' : (labelSearchCfg h spec).require_tip = true := hreq
    have hok := chooseLabelBest_some_tip h spec hreq' hp
    exact tipOk_px h (labelSearchCfg h spec) spec.ap.tip_margin_px rfl rfl hW hH hok
  · intro h spec p hp
    unfold choose_face_and_length_for_label at hp
    split at hp
    · left
      obtain rfl := Except.ok.inj hp
      assumption
    · split at hp
      · exact absurd hp (by simp)
      · right
        obtain rfl := Except.ok.inj hp
        rename_i p0 tl hv
        rw [hv]
        simp [List.headI]

/-- Witness for claim C4: on the witness host the port search selects
vertex 0 with length 2, and the theorem yields the pixel bound for its
tip. -/
theorem claim_C4_tip_in_frame_witness :
    choosePortBest wHost ({ length_cfg := some 2 } : PortSpecCfg) none
      = some ⟨0, ⟨1, 0, 0⟩, ⟨1, 0, 0⟩, 2, ⟨621 / 200, 0, 0⟩⟩
    ∧ (60 : ℚ) ≤ (wHost.w2cv (⟨621 / 200, 0, 0⟩ : V3)).x * renderW wHost := by
  have hb : choosePortBest wHost ({ length_cfg := some 2 } : PortSpecCfg) none
      = some ⟨0, ⟨1, 0, 0⟩, ⟨1, 0, 0⟩, 2, ⟨621 / 200, 0, 0⟩⟩ := by decide
  refine ⟨hb, ?_⟩
  exact (claim_C4_tip_in_frame.1 wHost { length_cfg := some 2 } none
    ⟨0, ⟨1, 0, 0⟩, ⟨1, 0, 0⟩, 2, ⟨621 / 200, 0, 0⟩⟩ rfl (by decide) (by decide)
    hb).1

/-! Sequential port builds.  build_port_object resolves one port, then adds
the winning vertex index to the shared per-boundary used set before the
next port is built (the main loop threads one mutable set per boundary
through consecutive calls).  The set insertion is modelled by List.insert,
which has exactly the membership behavior of set.add. -/

/-- The placements produced by building the given port specs in order
against one boundary, threading the used set. -/
def build_port_sequence (h : Host) :
    List PortSpecCfg → List ℕ → List PortPlacement
  | [], _ => []
  | s :: rest, used =>
    match choose_vertex_and_length_for_port h s (some used) with
    | .ok p => p :: build_port_sequence h rest (used.insert p.vertex_index)
    | .error _ => build_port_sequence h rest used

/-- The used set after building the given port specs in order. -/
def build_port_used (h : Host) : List PortSpecCfg → List ℕ → List ℕ
  | [], used => used
  | s :: rest, used =>
    match choose_vertex_and_length_for_port h s (some used) with
    | .ok p => build_port_used h rest (used.insert p.vertex_index)
    | .error _ => build_port_used h rest used

/-- Condition that at every step of the sequence the strict search pass
found a best candidate among unused vertices (so no fallback to a used
vertex was needed). -/
def build_port_steps_scored (h : Host) : List PortSpecCfg → List ℕ → Bool
  | [], _ => true
  | s :: rest, used =>
    (searchPort h (portSearchCfg h s) s.attach_site_type (portForcedIdx h s)
      (portUsedSet s (some used) (portForcedIdx h s))
      s.ap.require_visible_base).best_unused.isSome
    && match choose_vertex_and_length_for_port h s (some used) with
       | .ok p => build_port_steps_scored h rest (used.insert p.vertex_index)
       | .error _ => false

/-- Host for the claim C3 counterexample: nothing ever projects into the
camera frame, so no candidate scores and every port lands on the fallback
vertex 0. -/
def cexHost : Host :=
  { wHost with w2cv := fun _ => ⟨-1, -1, -1⟩ }

/-- Counterexample to claim C3: two auto-placed ports (no explicit index,
N = 2 and the boundary has 2 vertices) on a host where no vertex projects
into the frame both resolve to vertex index 0 — the documented fallback
reuses a claimed vertex, so the indices are not pairwise distinct. -/
theorem claim_C3_counterexample :
    (build_port_sequence cexHost [{}, {}] []).map PortPlacement.vertex_index
      = [0, 0]
    ∧ ¬ List.Pairwise (fun a b => a ≠ b)
        ((build_port_sequence cexHost [{}, {}] []).map
          PortPlacement.vertex_index) := by
  constructor
  · decide
  · intro hpw
    have h0 : (build_port_sequence cexHost [{}, {}] []).map
        PortPlacement.vertex_index = [0, 0] := by decide
    rw [h0] at hpw
    have := List.rel_of_pairwise_cons hpw (List.mem_singleton.mpr rfl)
    exact this rfl

lemma choosePortBest_of_best_unused_some (h : Host) (spec : PortSpecCfg)
    (used : Option (List ℕ)) {b : PortPlacement}
    (hbu : (searchPort h (portSearchCfg h spec) spec.attach_site_type
        (portForcedIdx h spec) (portUsedSet spec used (portForcedIdx h spec))
        spec.ap.require_visible_base).best_unused = some b) :
    choosePortBest h spec used = some b := by
  unfold choosePortBest
  dsimp only
  rw [if_neg (by simp [hbu])]
  rw [hbu]

lemma build_port_used_mono (h : Host) (specs : List PortSpecCfg) :
    ∀ (used : List ℕ) (x : ℕ), x ∈ used → x ∈ build_port_used h specs used := by
  induction specs with
  | nil => intro used x hx; exact hx
  | cons s rest ih =>
    intro used x hx
    unfold build_port_used
    split
    · exact ih _ x (List.mem_insert_of_mem hx)
    · exact ih _ x hx

lemma build_port_step_unused (h : Host) (s : PortSpecCfg) (used : List ℕ)
    (hforced : s.attach_index = none)
    (hunique : s.ap.unique_vertices = true)
    (hscored : (searchPort h (portSearchCfg h s) s.attach_site_type
      (portForcedIdx h s) (portUsedSet s (some used) (portForcedIdx h s))
      s.ap.require_visible_base).best_unused.isSome = true) :
    ∃ b, choose_vertex_and_length_for_port h s (some used) = .ok b
      ∧ b.vertex_index ∉ used := by
  obtain ⟨b, hb⟩ := Option.isSome_iff_exists.mp hscored
  have hus : portUsedSet s (some used) (portForcedIdx h s) = some used := by
    have hfi : portForcedIdx h s = none := by
      unfold portForcedIdx
      rw [hforced]
    rw [portUsedSet_some, if_pos ⟨hunique, hfi⟩]
  have hinv := searchPort_inv h (portSearchCfg h s) s.attach_site_type
    (portForcedIdx h s) (portUsedSet s (some used) (portForcedIdx h s))
    s.ap.require_visible_base (fun _ => True) (fun _ _ _ _ _ _ _ => trivial)
  have hnotin : b.vertex_index ∉ used := by
    have h2 := (hinv.2 b hb).2 used
    rw [hus] at h2
    exact h2 rfl
  refine ⟨b, ?_, hnotin⟩
  unfold choose_vertex_and_length_for_port
  rw [choosePortBest_of_best_unused_some h s (some used) hb]

/-- Claim C3 as amended: when every step of the sequential build finds a
best candidate among the unused vertices (the strict search pass scores at
least one vertex not yet claimed), the N auto-placed ports resolve to
pairwise distinct vertex indices, none of them in the initial used set,
and each winning index is recorded in the boundary's used set (which is
threaded into the next call by construction of the sequence). -/
theorem claim_C3_distinct_amended (h : Host) (specs : List PortSpecCfg)
    (used0 : List ℕ)
    (hforced : ∀ s ∈ specs, s.attach_index = none)
    (hunique : ∀ s ∈ specs, s.ap.unique_vertices = true)
    (hscored : build_port_steps_scored h specs used0 = true) :
    (∀ p ∈ build_port_sequence h specs used0, p.vertex_index ∉ used0)
    ∧ List.Pairwise (fun a b => a ≠ b)
        ((build_port_sequence h specs used0).map PortPlacement.vertex_index)
    ∧ ∀ p ∈ build_port_sequence h specs used0,
        p.vertex_index ∈ build_port_used h specs used0 := by
  induction specs generalizing used0 with
  | nil =>
    refine ⟨?_, ?_, ?_⟩ <;> simp [build_port_sequence]
  | cons s rest ih =>
    unfold build_port_steps_scored at hscored
    rw [Bool.and_eq_true] at hscored
    obtain ⟨hss, hrest⟩ := hscored
    obtain ⟨b, hb, hbnot⟩ := build_port_step_unused h s used0
      (hforced s (List.mem_cons_self s rest))
      (hunique s (List.mem_cons_self s rest)) hss
    rw [hb] at hrest
    dsimp only at hrest
    have ihres := ih (used0.insert b.vertex_index)
      (fun x hx => hforced x (List.mem_cons_of_mem s hx))
      (fun x hx => hunique x (List.mem_cons_of_mem s hx)) hrest
    have hseq : build_port_sequence h (s :: rest) used0
        = b :: build_port_sequence h rest (used0.insert b.vertex_index) := by
      simp only [build_port_sequence, hb]
    have hused : build_port_used h (s :: rest) used0
        = build_port_used h rest (used0.insert b.vertex_index) := by
      simp only [build_port_used, hb]
    refine ⟨?_, ?_, ?_⟩
    · intro p hp
      rw [hseq] at hp
      rcases List.mem_cons.mp hp with rfl | hp
      · exact hbnot
      · intro hmem
        exact ihres.1 p hp (List.mem_insert_of_mem hmem)
    · rw [hseq]
      rw [List.map_cons]
      refine List.Pairwise.cons ?_ ihres.2.1
      intro j hj hbj
      obtain ⟨q, hq, hqj⟩ := List.mem_map.mp hj
      have hnm := ihres.1 q hq
      refine hnm ?_
      rw [hqj, ← hbj]
      exact List.mem_insert_self _ _
    · intro p hp
      rw [hseq] at hp
      rw [hused]
      rcases List.mem_cons.mp hp with rfl | hp
      · exact build_port_used_mono h rest _ _
          (List.mem_insert_self p.vertex_index used0)
      · exact ihres.2.2 p hp

/-- Witness for the amended claim C3: on the witness host two auto ports
score unused vertices at every step and resolve to the distinct vertex
indices 0 and 1. -/
theorem claim_C3_distinct_amended_witness :
    build_port_steps_scored wHost
        [{ length_cfg := some 2 }, { length_cfg := some 2 }] [] = true
    ∧ List.Pairwise (fun a b => a ≠ b)
        ((build_port_sequence wHost
          [{ length_cfg := some 2 }, { length_cfg := some 2 }] []).map
          PortPlacement.vertex_index) := by
  refine ⟨by decide, ?_⟩
  exact (claim_C3_distinct_amended wHost
    [{ length_cfg := some 2 }, { length_cfg := some 2 }] []
    (by decide) (by decide) (by decide)).2.1

end RatComputable

end MBM
